import Mathlib

/-!
Verification development for the free-report-analyzer backend.

The definitions below are a shallow embedding of the Python sources
`src/backend/simple_app.py` (class EnhancedAI and its Gemini-conclusion
helpers) and `src/backend/template_manager.py` (class TemplateManager).

Modelling conventions, used throughout:
  - Python `str` is modelled by `String` (in Lean a wrapper around
    `List Char`); all operations are implemented on the character list so
    that they evaluate inside the kernel.
  - `str.lower`, `str.isalpha`, `str.split`, `str.strip` and the regex
    character classes are modelled on ASCII/`Char` predicates; Python
    widens some of these to further Unicode classes, which no input in
    this development exercises.
  - Python floats are modelled by exact rationals (`ℚ`); `round(x, 2)` is
    modelled by half-to-even rounding of the exact rational, ignoring
    binary floating point representation error.
  - fresh timestamps (`datetime.now().isoformat()`) are passed in as an
    explicit `now : String` argument.
-/

/-- Python `needle in hay` substring test on character lists
(`"" in s` is true, as in Python). -/
def isInfixOfCh (n : List Char) : List Char → Bool
  | [] => n.isEmpty
  | c :: rest => n.isPrefixOf (c :: rest) || isInfixOfCh n rest

/-- Python `needle in hay` for strings. -/
def pyIn (needle hay : String) : Bool := isInfixOfCh needle.toList hay.toList

/-- Python `str.lower()` (ASCII case folding). -/
def pyLower (s : String) : String := ⟨s.toList.map Char.toLower⟩

/-- Helper for `pyWords`: accumulate the current word (reversed) while
scanning; whitespace closes a word. -/
def pyWordsAux (cur : List Char) : List Char → List (List Char)
  | [] => if cur.isEmpty then [] else [cur.reverse]
  | c :: cs =>
    if c.isWhitespace then
      if cur.isEmpty then pyWordsAux [] cs else cur.reverse :: pyWordsAux [] cs
    else pyWordsAux (c :: cur) cs

/-- Python `str.split()` with no separator: split on runs of whitespace,
dropping empty pieces. -/
def pyWords (s : String) : List String := (pyWordsAux [] s.toList).map String.mk

/-- Splitting on a single newline character, keeping empty pieces:
Python `text.split(chr(10))`. -/
def pySplitLinesCh : List Char → List (List Char)
  | [] => [[]]
  | c :: cs =>
    if c = '\n' then [] :: pySplitLinesCh cs
    else
      match pySplitLinesCh cs with
      | [] => [[c]]
      | l :: ls => (c :: l) :: ls

/-- Python `text.split` on a newline. -/
def pySplitLines (s : String) : List String := (pySplitLinesCh s.toList).map String.mk

/-- Python `str.strip()`: remove leading and trailing whitespace. -/
def pyStrip (s : String) : String :=
  ⟨((s.toList.dropWhile Char.isWhitespace).reverse.dropWhile Char.isWhitespace).reverse⟩

/-- Python `str.isalpha()` (ASCII letters; nonempty). -/
def pyIsAlpha (s : String) : Bool := !s.toList.isEmpty && s.toList.all Char.isAlpha

/-- Distinct elements of a list, keeping the first occurrence of each, in
order: the key order of a Python dict/Counter built by repeated insertion. -/
def pyDedupAux [DecidableEq α] (seen : List α) : List α → List α
  | [] => []
  | x :: xs => if x ∈ seen then pyDedupAux seen xs else x :: pyDedupAux (x :: seen) xs

/-- First-occurrence deduplication. -/
def pyDedup [DecidableEq α] (l : List α) : List α := pyDedupAux [] l

/-- Kernel-computable floor of a rational. -/
def ratFloor (q : ℚ) : ℤ := Int.fdiv q.num q.den

/-- Round a rational to the nearest integer, halves to even: the rounding
mode of Python `round`. -/
def roundHalfEven (q : ℚ) : ℤ :=
  if q - (ratFloor q : ℚ) < 1/2 then ratFloor q
  else if 1/2 < q - (ratFloor q : ℚ) then ratFloor q + 1
  else if ratFloor q % 2 = 0 then ratFloor q else ratFloor q + 1

/-- Python `round(x, 2)` on exact rationals. -/
def pyRound2 (q : ℚ) : ℚ := (roundHalfEven (q * 100) : ℚ) / 100

/-! ### Lexicons of `EnhancedAI.__init__` (src/backend/simple_app.py) -/

/-- The set `self.positive_words` (the Python set literal spells `completed` twice;
membership is unaffected). -/
def positive_words : List String :=
  ["good", "great", "excellent", "success", "completed",
   "fixed", "working", "improved", "finished", "achieved",
   "positive", "better", "fast", "efficient", "solved",
   "completed", "deployed", "resolved", "launched"]

/-- The set `self.negative_words`. -/
def negative_words : List String :=
  ["bad", "poor", "failed", "issue", "problem", "error",
   "broken", "slow", "delayed", "blocked", "stuck",
   "negative", "worse", "difficult", "challenge", "risk",
   "concern", "bug", "crash", "down", "outage"]

/-- The set `urgent_words` of `EnhancedAI._detect_urgency`. -/
def urgent_words : List String :=
  ["urgent", "immediate", "asap", "critical", "emergency",
   "important", "blocked", "failed", "broken", "down"]

/-- The set `project_words` of `EnhancedAI._extract_topics`. This is a Python set
whose iteration order is unspecified (hash randomised); the list keeps the
literal order of the source. Claims proved below only exercise the branch
in which no member occurs in the text, where the order is irrelevant. -/
def project_words : List String :=
  ["bug", "feature", "deploy", "test", "meeting", "report",
   "database", "api", "system", "user", "client", "team",
   "project", "code", "software", "hardware", "network",
   "security", "performance", "update", "version", "release"]

/-- The set `accomplishment_keywords` of `EnhancedAI._extract_accomplishments`. -/
def accomplishment_keywords : List String :=
  ["completed", "finished", "achieved", "fixed",
   "resolved", "deployed", "implemented", "launched",
   "success", "good", "great", "excellent"]

/-- The list `problem_keywords` of `EnhancedAI._extract_problems`. -/
def problem_keywords : List String :=
  ["issue", "problem", "error", "bug", "failed",
   "blocked", "delayed", "stuck", "broken", "challenge",
   "difficult", "slow", "risk", "concern"]

/-- The list `action_patterns` of `EnhancedAI._extract_action_items` (all are plain
substrings; the regex module is only used for substring containment here). -/
def action_patterns : List String :=
  ["need to", "must", "should", "will", "plan to",
   "next steps", "action required", "task"]

/-! ### Topic extraction (`EnhancedAI._extract_topics`) -/

/-- Ordering used to model `Counter.most_common` / `heapq.nlargest`:
count descending, ties broken by the position of the first occurrence of
the word in `ws` (CPython `nlargest` decorates items with their index, so
on equal counts the earlier-inserted Counter key — the earlier first
occurrence — wins). -/
def topicLe (ws : List String) (a b : String × Nat) : Prop :=
  b.2 < a.2 ∨ (b.2 = a.2 ∧ ws.indexOf a.1 ≤ ws.indexOf b.1)

instance (ws : List String) : DecidableRel (topicLe ws) := by
  intro a b; unfold topicLe; infer_instance

instance (ws : List String) : IsTotal (String × Nat) (topicLe ws) := by
  constructor; intro a b
  rcases Nat.lt_trichotomy a.2 b.2 with h | h | h
  · exact Or.inr (Or.inl h)
  · rcases Nat.le_total (ws.indexOf a.1) (ws.indexOf b.1) with h2 | h2
    · exact Or.inl (Or.inr ⟨h.symm, h2⟩)
    · exact Or.inr (Or.inr ⟨h, h2⟩)
  · exact Or.inl (Or.inl h)

instance (ws : List String) : IsTrans (String × Nat) (topicLe ws) := by
  constructor; intro a b c hab hbc
  rcases hab with h1 | ⟨h1, h1i⟩
  · rcases hbc with h2 | ⟨h2, _⟩
    · exact Or.inl (h2.trans h1)
    · exact Or.inl (h2 ▸ h1)
  · rcases hbc with h2 | ⟨h2, h2i⟩
    · exact Or.inl (h1 ▸ h2)
    · exact Or.inr ⟨h2.trans h1, le_trans h1i h2i⟩

/-- Embedding of `collections.Counter(ws)` as an association list: distinct words in
first-occurrence order, each with its multiplicity. -/
def counterItems (ws : List String) : List (String × Nat) :=
  (pyDedup ws).map (fun w => (w, ws.count w))

/-- Embedding of `Counter(ws).most_common n`: items sorted by count descending, ties by
insertion order, truncated to `n`. -/
def most_common (n : Nat) (ws : List String) : List (String × Nat) :=
  (List.insertionSort (topicLe ws) (counterItems ws)).take n

/-- The fallback token list of `_extract_topics`:
`[w for w in text_lower.split() if len(w) > 3 and w.isalpha()]`. -/
def topicCandidateWords (text_lower : String) : List String :=
  (pyWords text_lower).filter (fun w => 3 < w.length && pyIsAlpha w)

/-- Embedding of `EnhancedAI._extract_topics` (src/backend/simple_app.py lines 138-156).
The argument is the already lowercased text, as at the call site. -/
def extract_topics (text_lower : String) : List String :=
  let topics := project_words.filter (fun t => pyIn t text_lower)
  if topics.isEmpty then
    (most_common 5 (topicCandidateWords text_lower)).map (fun p => p.1)
  else topics

/-! ### The other analysis helpers of `EnhancedAI` -/

/-- Embedding of `EnhancedAI._generate_summary`. -/
def generate_summary (text : String) : String :=
  let lines := ((pySplitLines text).map pyStrip).filter (fun l => !l.isEmpty)
  match lines.find? (fun line =>
      30 < line.length &&
      !(match line.toList with
        | c :: _ => c = '=' || c = '-' || c = '#' || c = '*'
        | [] => false)) with
  | some line => if 150 < line.length then ⟨line.toList.take 150⟩ ++ "..." else line
  | none => if 100 < text.length then ⟨text.toList.take 100⟩ ++ "..." else text

/-- Embedding of `EnhancedAI._detect_urgency`; the argument is the lowercased text. -/
def detect_urgency (text_lower : String) : String :=
  if urgent_words.any (fun w => pyIn w text_lower) then "high"
  else
    let negative_words_in_text :=
      ((pyWords text_lower).filter (fun w => negative_words.contains w)).length
    if 0 < negative_words_in_text then "medium" else "low"

/-- Shared shape of `_extract_accomplishments`, `_extract_problems` and
`_extract_action_items`: keep (stripped) lines that contain a keyword and
whose stripped length exceeds 10. -/
def extractLinesWith (keywords : List String) (text : String) : List String :=
  ((pySplitLines text).filter (fun line =>
      keywords.any (fun k => pyIn k (pyLower line)) && 10 < (pyStrip line).length)).map pyStrip

/-- Embedding of `EnhancedAI._extract_accomplishments`. -/
def extract_accomplishments (text : String) : List String :=
  extractLinesWith accomplishment_keywords text

/-- Embedding of `EnhancedAI._extract_problems`. -/
def extract_problems (text : String) : List String :=
  extractLinesWith problem_keywords text

/-- Embedding of `EnhancedAI._extract_action_items`. -/
def extract_action_items (text : String) : List String :=
  extractLinesWith action_patterns text

/-! ### `EnhancedAI.analyze` -/

/-- The `sentiment` sub-dictionary of the analysis record. -/
structure Sentiment where
  label : String
  score : ℚ
  positive_words : Nat
  negative_words : Nat
deriving DecidableEq, Repr

/-- The dictionary returned by `EnhancedAI.analyze`. -/
structure AnalysisRecord where
  sentiment : Sentiment
  topics : List String
  summary : String
  word_count : Nat
  urgency : String
  accomplishments : List String
  problems : List String
  action_items : List String
  analysis_complete : Bool
deriving DecidableEq, Repr

/-- Embedding of `EnhancedAI.analyze` (src/backend/simple_app.py lines 87-136). -/
def analyze (text : String) : AnalysisRecord :=
  let text_lower := pyLower text
  let words := pyWords text_lower
  let pos_count := (words.filter (fun w => positive_words.contains w)).length
  let neg_count := (words.filter (fun w => negative_words.contains w)).length
  let sentiment :=
    if neg_count < pos_count then "positive"
    else if pos_count < neg_count then "negative"
    else "neutral"
  let score : ℚ :=
    if neg_count < pos_count then (pos_count : ℚ) / (max (pos_count + neg_count) 1 : Nat)
    else if pos_count < neg_count then -(neg_count : ℚ) / (max (pos_count + neg_count) 1 : Nat)
    else 0
  { sentiment :=
      { label := sentiment
        score := pyRound2 score
        positive_words := pos_count
        negative_words := neg_count }
    topics := (extract_topics text_lower).take 5
    summary := generate_summary text
    word_count := words.length
    urgency := detect_urgency text_lower
    accomplishments := (extract_accomplishments text).take 3
    problems := (extract_problems text).take 3
    action_items := (extract_action_items text).take 3
    analysis_complete := true }

/-! ### Conclusion generation (`EnhancedAI.generate_gemini_conclusion` and
`EnhancedAI._generate_fallback_conclusion`, src/backend/simple_app.py) -/

/-- The record built by the conclusion generators. -/
structure ConclusionRecord where
  ai_conclusion : String
  generated_by : String
  timestamp : String
deriving DecidableEq, Repr

/-- The canned narrative of the `positive`/`low` branch of
`_generate_fallback_conclusion`. -/
def goodProgressConclusion : String :=
  "✅ **Overall Status: Good Progress**\n• Report shows positive developments and completed tasks\n• Team is on track with minimal issues\n• Continue current momentum and maintain communication"

/-- The canned narrative of the `negative`-or-`high` branch. -/
def attentionNeededConclusion : String :=
  "⚠️ **Overall Status: Attention Needed**\n• Several issues require immediate attention\n• Negative sentiment indicates significant challenges\n• Prioritize problem resolution and escalate if needed"

/-- The canned narrative of the final branch. -/
def stableOperationsConclusion : String :=
  "ℹ️ **Overall Status: Stable Operations**\n• Standard operational report with mixed results\n• Some minor issues noted but overall stable\n• Monitor ongoing tasks and follow up on action items"

/-- Embedding of `EnhancedAI._generate_fallback_conclusion` (lines 273-298). -/
def generate_fallback_conclusion (analysis : AnalysisRecord) (now : String) : ConclusionRecord :=
  let sentiment := analysis.sentiment.label
  let urgency := analysis.urgency
  let conclusion :=
    if sentiment = "positive" && urgency = "low" then goodProgressConclusion
    else if sentiment = "negative" || urgency = "high" then attentionNeededConclusion
    else stableOperationsConclusion
  { ai_conclusion := conclusion, generated_by := "fallback_ai", timestamp := now }

/-- Outcome of the one external Gemini call made by
`generate_gemini_conclusion`: the service may be unconfigured
(`GEMINI_AVAILABLE` false or no model), the request may raise, or it may
come back with response text (an empty string models a falsy/empty
response). The prompt construction has no effect on the returned record
and is abstracted into this outcome. -/
inductive ServiceOutcome where
  | unavailable : ServiceOutcome
  | errored : ServiceOutcome
  | responded (text : String) : ServiceOutcome
deriving DecidableEq, Repr

/-- Whether the call failed in the sense of the fallback contract
(unconfigured, raised, or empty response text). -/
def serviceFailed : ServiceOutcome → Bool
  | .responded t => t.isEmpty
  | _ => true

/-- Embedding of `EnhancedAI.generate_gemini_conclusion` (lines 232-271). -/
def generate_gemini_conclusion (outcome : ServiceOutcome) (analysis : AnalysisRecord)
    (now : String) : ConclusionRecord :=
  match outcome with
  | .responded t =>
    if !t.isEmpty then { ai_conclusion := t, generated_by := "gemini_ai", timestamp := now }
    else generate_fallback_conclusion analysis now
  | _ => generate_fallback_conclusion analysis now

/-! ### Template data model (`TemplateManager`, src/backend/template_manager.py) -/

/-- A department template dictionary. The Python dict may lack the
`required_sections` key, which every reader accesses as
`template.get(0x27required_sections0x27, [])`; the missing key is modelled by the
empty list. A `date_format` of `""` models a falsy (missing/None) value;
`bullet_style := none` models Python `None`. -/
structure Template where
  department : String
  section_headers : List String
  sections_found : List String
  bullet_style : Option String
  date_format : String
  sample_lines : List String
  last_updated : String
  usage_count : Nat
  required_sections : List String
deriving DecidableEq, Repr

/-- Embedding of `TemplateManager.save_template` (lines 111-121), acting on the
`self.templates` map modelled as a function. `list(set(a + b))` produces
the elements of the union in an unspecified order; it is modelled as
first-occurrence deduplication of the concatenation, and every property
proved about these fields is stated at the level of the underlying set. -/
def save_template (templates : String → Option Template) (department : String)
    (template : Template) (now : String) : String → Option Template :=
  match templates department with
  | some existing =>
    fun d =>
      if d = department then
        some { existing with
               section_headers := pyDedup (existing.section_headers ++ template.section_headers)
               sections_found := pyDedup (existing.sections_found ++ template.sections_found)
               usage_count := existing.usage_count + 1
               last_updated := now }
      else templates d
  | none => fun d => if d = department then some template else templates d

/-- Embedding of `TemplateManager.get_template` (lines 123-125). -/
def get_template (templates : String → Option Template) (department : String) :
    Option Template :=
  templates department

/-! ### Bullet regexes (`_detect_bullet_style` patterns, also used by
`_has_bullet`). Each Python pattern is anchored at the start of the line;
`matchX line` holds iff `re.search` finds a match. -/

/-- Drop the leading whitespace matched by the initial greedy backslash-s-star
(no pattern continues with a whitespace-class character, so greediness is
harmless). -/
def skipWs (cs : List Char) : List Char := cs.dropWhile Char.isWhitespace

/-- Head of the list is a whitespace character: one step of the trailing
backslash-s-plus (the remainder of the line is unconstrained). -/
def wsHead : List Char → Bool
  | c :: _ => c.isWhitespace
  | [] => false

/-- Pattern for the `dash` style. -/
def matchDash (line : String) : Bool :=
  match skipWs line.toList with
  | c :: rest => (c = '-' || c = '–' || c = '—') && wsHead rest
  | [] => false

/-- Pattern for the `asterisk` style. -/
def matchAsterisk (line : String) : Bool :=
  match skipWs line.toList with
  | c :: rest => c = '*' && wsHead rest
  | [] => false

/-- Pattern for the `number` style: one or more digits, then a dot or a
closing parenthesis, then whitespace. -/
def matchNumber (line : String) : Bool :=
  let cs := skipWs line.toList
  let ds := cs.takeWhile Char.isDigit
  let rest := cs.dropWhile Char.isDigit
  !ds.isEmpty &&
    (match rest with
     | p :: r2 => (p = '.' || p = ')') && wsHead r2
     | [] => false)

/-- Pattern for the `letter` style: one ASCII letter, then a dot or a
closing parenthesis, then whitespace. -/
def matchLetter (line : String) : Bool :=
  match skipWs line.toList with
  | c :: p :: rest => c.isAlpha && (p = '.' || p = ')') && wsHead rest
  | _ => false

/-- Pattern for the `checkbox` style. -/
def matchCheckbox (line : String) : Bool :=
  match skipWs line.toList with
  | a :: b :: c :: rest => a = '[' && (b = ' ' || b = 'x') && c = ']' && wsHead rest
  | _ => false

/-- Pattern for the `arrow` style. -/
def matchArrow (line : String) : Bool :=
  match skipWs line.toList with
  | c :: rest => (c = '→' || c = '⇒' || c = '›') && wsHead rest
  | [] => false

/-- Pattern for the `bullet` style. -/
def matchBullet (line : String) : Bool :=
  match skipWs line.toList with
  | c :: rest => (c = '•' || c = '◦') && wsHead rest
  | [] => false

/-- The `bullet_patterns` dict of `_detect_bullet_style`, in its literal
(insertion) order. -/
def bulletStyles : List (String × (String → Bool)) :=
  [("dash", matchDash), ("asterisk", matchAsterisk), ("number", matchNumber),
   ("letter", matchLetter), ("checkbox", matchCheckbox), ("arrow", matchArrow),
   ("bullet", matchBullet)]

/-- Embedding of `bullet_counts[style] += 1` on a `defaultdict(int)`: an absent key is
appended at the end (dict insertion order), a present key keeps its place. -/
def bumpCount : List (String × Nat) → String → List (String × Nat)
  | [], style => [(style, 1)]
  | (s, n) :: rest, style =>
    if s = style then (s, n + 1) :: rest else (s, n) :: bumpCount rest style

/-- The inner loop of `_detect_bullet_style` for one line: try every
pattern in declared order and bump each matching style. -/
def tallyLine (counts : List (String × Nat)) (line : String) : List (String × Nat) :=
  bulletStyles.foldl (fun acc p => if p.2 line then bumpCount acc p.1 else acc) counts

/-- Python `max(items, key=lambda x: x[1])` over a nonempty association
list: the first item with the maximal value wins. -/
def pyMaxBySnd : List (String × Nat) → Option (String × Nat)
  | [] => none
  | x :: xs => some (xs.foldl (fun best y => if best.2 < y.2 then y else best) x)

/-- Embedding of `TemplateManager._detect_bullet_style` (lines 73-94); `none` models the
Python `None` returned when no line matches any pattern. -/
def detect_bullet_style (lines : List String) : Option String :=
  let counts := lines.foldl tallyLine []
  (pyMaxBySnd counts).map (fun p => p.1)

/-! ### Date patterns (`_get_date_pattern` and `re.search` in
`validate_report`). Each pattern is of the shape word-boundary, digit
groups with literal separators, word-boundary; `re.search` scans every
position. The word class is modelled as ASCII alphanumeric or underscore. -/

/-- Python regex word character (ASCII fragment of the class). -/
def isWordChar (c : Char) : Bool := c.isAlphanum || c = '_'

/-- A word boundary holds before the (digit-initial) match iff there is no
preceding character or it is a non-word character. -/
def boundaryBefore : Option Char → Bool
  | none => true
  | some c => !isWordChar c

/-- A word boundary holds after the (digit-final) match iff the text ends
or continues with a non-word character. -/
def boundaryAfter : List Char → Bool
  | [] => true
  | c :: _ => !isWordChar c

/-- Generic `re.search`: try the position matcher at every suffix,
tracking the preceding character for the leading boundary. -/
def reSearchAux (matchAt : Option Char → List Char → Bool) :
    Option Char → List Char → Bool
  | prev, [] => matchAt prev []
  | prev, c :: rest => matchAt prev (c :: rest) || reSearchAux matchAt (some c) rest

/-- Embedding of `re.search(pattern, s)` as a Bool. -/
def reSearch (matchAt : Option Char → List Char → Bool) (s : String) : Bool :=
  reSearchAux matchAt none s.toList

/-- One fixed-width digit group followed by a literal separator: the run of
digits at the head must have exactly `width` digits and be followed by
`sep` (a longer run makes the literal separator fail for every backtracking
choice, since every shorter prefix of the run is followed by a digit). -/
def digitGroupSep (width : Nat) (sep : Char) (cs : List Char) : Option (List Char) :=
  let ds := cs.takeWhile Char.isDigit
  let rest := cs.dropWhile Char.isDigit
  match rest with
  | c :: r2 => if ds.length = width && c = sep then some r2 else none
  | [] => none

/-- A one-or-two-digit group followed by a literal separator (the greedy
one-or-two quantifier with backtracking reduces to: the whole digit run has
length 1 or 2 and is followed by the separator). -/
def digitGroup12Sep (sep : Char) (cs : List Char) : Option (List Char) :=
  let ds := cs.takeWhile Char.isDigit
  let rest := cs.dropWhile Char.isDigit
  match rest with
  | c :: r2 => if (ds.length = 1 || ds.length = 2) && c = sep then some r2 else none
  | [] => none

/-- A final digit group of exactly `width` digits followed by a word
boundary. -/
def digitGroupEnd (width : Nat) (cs : List Char) : Bool :=
  let ds := cs.takeWhile Char.isDigit
  let rest := cs.dropWhile Char.isDigit
  ds.length = width && boundaryAfter rest

/-- Matcher for the `iso` date pattern at one position. -/
def matchIsoAt (prev : Option Char) (cs : List Char) : Bool :=
  boundaryBefore prev &&
    (match digitGroupSep 4 '-' cs with
     | some r1 =>
       (match digitGroupSep 2 '-' r1 with
        | some r2 => digitGroupEnd 2 r2
        | none => false)
     | none => false)

/-- Matcher for the `us` date pattern at one position. -/
def matchUsAt (prev : Option Char) (cs : List Char) : Bool :=
  boundaryBefore prev &&
    (match digitGroup12Sep '/' cs with
     | some r1 =>
       (match digitGroup12Sep '/' r1 with
        | some r2 => digitGroupEnd 4 r2
        | none => false)
     | none => false)

/-- Matcher for the `euro` date pattern at one position. -/
def matchEuroAt (prev : Option Char) (cs : List Char) : Bool :=
  boundaryBefore prev &&
    (match digitGroup12Sep '.' cs with
     | some r1 =>
       (match digitGroup12Sep '.' r1 with
        | some r2 => digitGroupEnd 4 r2
        | none => false)
     | none => false)

/-- Embedding of `re.search(self._get_date_pattern(fmt), text)`: the three known
formats use their patterns; any other format (`_get_date_pattern` returns
the empty pattern, e.g. for `text`) matches every string. -/
def datePatternFound (date_format : String) (text : String) : Bool :=
  if date_format = "iso" then reSearch matchIsoAt text
  else if date_format = "us" then reSearch matchUsAt text
  else if date_format = "euro" then reSearch matchEuroAt text
  else true

/-- Embedding of `TemplateManager._has_bullet` (lines 187-197): the patterns dict here
has no `letter` entry, and an unknown style falls back to
`patterns.get(style, empty)` whose empty pattern matches every line. -/
def has_bullet (line : String) (style : String) : Bool :=
  if style = "dash" then matchDash line
  else if style = "asterisk" then matchAsterisk line
  else if style = "number" then matchNumber line
  else if style = "checkbox" then matchCheckbox line
  else if style = "arrow" then matchArrow line
  else if style = "bullet" then matchBullet line
  else true

/-- Embedding of `TemplateManager._calculate_match_score` (lines 164-185). -/
def calculate_match_score (text : String) (template : Template) : ℚ :=
  let text_lower := pyLower text
  let lines := pySplitLines text_lower
  let score0 : ℚ := 100
  let score1 :=
    template.required_sections.foldl
      (fun sc sec => if !pyIn sec text_lower then sc - 20 else sc) score0
  let template_headers := pyDedup (template.section_headers.map pyLower)
  let found_headers :=
    (lines.filter (fun line => template_headers.any (fun h => pyIn h line))).length
  let score2 :=
    if template_headers.isEmpty then score1
    else min score1 (((found_headers : ℚ) / (template_headers.length : ℚ)) * 30)
  max 0 score2

/-- The dictionary returned by `TemplateManager.validate_report`: the
no-template branch carries only `valid` and `message`, the template branch
only `valid`, `missing_sections`, `warnings` and `template_match_score`.
Keys absent from the respective Python dict are `none`. -/
structure Verdict where
  valid : Bool
  message : Option String
  missing_sections : Option (List String)
  warnings : Option (List String)
  template_match_score : Option ℚ
deriving DecidableEq, Repr

/-- Embedding of `TemplateManager.validate_report` (lines 127-162). -/
def validate_report (templates : String → Option Template) (text department : String) :
    Verdict :=
  match get_template templates department with
  | none =>
    { valid := true
      message := some "No template defined for this department"
      missing_sections := none
      warnings := none
      template_match_score := none }
  | some template =>
    let missing_sections :=
      template.required_sections.filter (fun sec => !pyIn sec (pyLower text))
    let date_warning : Option String :=
      if template.date_format ≠ "" && template.date_format ≠ "unknown" then
        if !datePatternFound template.date_format text then
          some ("Date format doesn\x27t match expected " ++ template.date_format ++ " format")
        else none
      else none
    let bullet_warning : Option String :=
      match template.bullet_style with
      | some style =>
        if style ≠ "" then
          let lines := pySplitLines text
          let bullet_count := (lines.filter (fun line => has_bullet line style)).length
          let total_items :=
            (lines.filter (fun line =>
                ["dash", "asterisk", "number", "checkbox", "arrow", "bullet"].any
                  (fun st => has_bullet line st))).length
          if 0 < total_items && (bullet_count : ℚ) / (total_items : ℚ) < 1/2 then
            some ("Inconsistent bullet style. Expected: " ++ style)
          else none
        else none
      | none => none
    { valid := missing_sections.isEmpty
      message := none
      missing_sections := some missing_sections
      warnings := some ([date_warning, bullet_warning].filterMap id)
      template_match_score := some (calculate_match_score text template) }

/-! ### Concrete stores, templates and analysis records used by the
witnesses and counterexamples below, and derived scan sequences -/

/-- Concrete stored template used to refute the most-recent-wins reading. -/
def c1Existing : Template where
  department := "eng"
  section_headers := ["Done:"]
  sections_found := ["accomplishments"]
  bullet_style := some "dash"
  date_format := "iso"
  sample_lines := ["old sample line"]
  last_updated := "2024-01-01T00:00:00"
  usage_count := 1
  required_sections := []

/-- Concrete merge candidate whose style fields all differ from the stored
ones. -/
def c1Candidate : Template where
  department := "eng"
  section_headers := ["Plans:"]
  sections_found := ["plans"]
  bullet_style := some "asterisk"
  date_format := "us"
  sample_lines := ["new sample line"]
  last_updated := "2024-02-02T00:00:00"
  usage_count := 1
  required_sections := []

/-- A store holding only the `eng` template. -/
def c1Store : String → Option Template :=
  fun d => if d = "eng" then some c1Existing else none

/-- All-empty store for the C10 witness. -/
def c10Store : String → Option Template := fun _ => none

/-- A concrete analysis record: positive sentiment, low urgency. -/
def c6Analysis : AnalysisRecord where
  sentiment := { label := "positive", score := 1, positive_words := 2, negative_words := 0 }
  topics := ["release"]
  summary := "shipped the release and closed the sprint cleanly"
  word_count := 8
  urgency := "low"
  accomplishments := ["shipped the release"]
  problems := []
  action_items := []
  analysis_complete := true

/-- Template with one required section, for the C4 witness. -/
def c4Template : Template where
  department := "ops"
  section_headers := ["Metrics:"]
  sections_found := ["metrics"]
  bullet_style := none
  date_format := "unknown"
  sample_lines := []
  last_updated := "2024-01-01T00:00:00"
  usage_count := 1
  required_sections := ["metrics"]

/-- Store holding only the C4 template. -/
def c4Store : String → Option Template :=
  fun d => if d = "ops" then some c4Template else none

/-- A sequence of `save_template` calls for one department (candidate and
timestamp per call), in order. -/
def saveSeq (templates : String → Option Template) (department : String) :
    List (Template × String) → (String → Option Template)
  | [] => templates
  | op :: rest => saveSeq (save_template templates department op.1 op.2) department rest

/-- First contributed template for the C5 witness. -/
def c5A : Template where
  department := "eng"
  section_headers := ["Accomplishments:"]
  sections_found := ["accomplishments"]
  bullet_style := some "dash"
  date_format := "iso"
  sample_lines := []
  last_updated := "t1"
  usage_count := 1
  required_sections := []

/-- Second contributed template for the C5 witness. -/
def c5B : Template where
  department := "eng"
  section_headers := ["Plans:"]
  sections_found := ["plans"]
  bullet_style := some "asterisk"
  date_format := "us"
  sample_lines := []
  last_updated := "t2"
  usage_count := 1
  required_sections := []

/-- The match-score formula exactly as the claim words it: the coverage
numerator is the number of template headers found in the text (so at most
the number of known headers). Stated only for comparison against the
source formula `calculate_match_score`. -/
def claim_match_score (text : String) (template : Template) : ℚ :=
  let text_lower := pyLower text
  let base : ℚ := 100 - 20 * ((template.required_sections.filter
      (fun sec => !pyIn sec text_lower)).length : ℚ)
  let template_headers := pyDedup (template.section_headers.map pyLower)
  let found := (template_headers.filter (fun hdr => pyIn hdr text_lower)).length
  max 0 (if template_headers.isEmpty then base
    else min base ((found : ℚ) / ((template_headers.length : ℚ)) * 30))

/-- Template with one known header and no required sections, for the C2
counterexample. -/
def c2Template : Template where
  department := "eng"
  section_headers := ["a"]
  sections_found := []
  bullet_style := none
  date_format := "unknown"
  sample_lines := []
  last_updated := "t0"
  usage_count := 1
  required_sections := []

/-- Strictly-before relation of the most-common ordering on fallback topic
words: strictly more frequent, or equally frequent with an earlier first
occurrence. -/
def topicsPrecede (ws : List String) (a b : String) : Prop :=
  ws.count b < ws.count a ∨ (ws.count b = ws.count a ∧ ws.indexOf a < ws.indexOf b)

/-- Modelled from the spec: the claim excludes "stop-words" from the topic
fallback, but neither the spec nor the source under src/ defines a
stop-word list (no stop-word filtering exists in
`EnhancedAI._extract_topics`); this minimal list records words that every
conventional English stop-word list contains, to state the refutation. -/
def specStopWords : List String :=
  ["the", "and", "that", "this", "with", "from", "have", "them", "what", "were"]

/-- The sequence of style names matched during the `_detect_bullet_style`
scan, in scan order: lines outer, declared pattern order inner. Its
`count` of a style is that style tally; its first occurrence of a style
is the moment the style first entered the counts dict. -/
def matchedSeq (lines : List String) : List String :=
  lines.flatMap (fun line => (bulletStyles.filter (fun p => p.2 line)).map Prod.fst)

/-! ### Helper lemmas -/

theorem mem_pyDedupAux [DecidableEq α] (a : α) :
    ∀ (l : List α) (seen : List α), a ∈ pyDedupAux seen l ↔ a ∈ l ∧ a ∉ seen := by
  intro l
  induction l with
  | nil => intro seen; simp [pyDedupAux]
  | cons x xs ih =>
    intro seen
    by_cases hx : x ∈ seen
    · simp only [pyDedupAux, if_pos hx, ih]
      constructor
      · rintro ⟨h1, h2⟩; exact ⟨List.mem_cons_of_mem _ h1, h2⟩
      · rintro ⟨h1, h2⟩
        rcases List.mem_cons.mp h1 with rfl | h1
        · exact absurd hx h2
        · exact ⟨h1, h2⟩
    · simp only [pyDedupAux, if_neg hx, List.mem_cons, ih]
      constructor
      · rintro (rfl | ⟨h1, h2⟩)
        · exact ⟨Or.inl rfl, hx⟩
        · exact ⟨Or.inr h1, fun hs => h2 (Or.inr hs)⟩
      · rintro ⟨rfl | h1, h2⟩
        · exact Or.inl rfl
        · by_cases hax : a = x
          · exact Or.inl hax
          · refine Or.inr ⟨h1, fun hs => ?_⟩
            rcases hs with h | h
            · exact hax h
            · exact h2 h

theorem mem_pyDedup [DecidableEq α] (a : α) (l : List α) : a ∈ pyDedup l ↔ a ∈ l := by
  simp [pyDedup, mem_pyDedupAux]

theorem nodup_pyDedupAux [DecidableEq α] :
    ∀ (l : List α) (seen : List α), (pyDedupAux seen l).Nodup := by
  intro l
  induction l with
  | nil => intro seen; simp [pyDedupAux]
  | cons x xs ih =>
    intro seen
    by_cases hx : x ∈ seen
    · simpa only [pyDedupAux, if_pos hx] using ih seen
    · simp only [pyDedupAux, if_neg hx]
      refine List.nodup_cons.mpr ⟨fun hmem => ?_, ih (x :: seen)⟩
      exact ((mem_pyDedupAux x xs (x :: seen)).mp hmem).2 (List.mem_cons_self x seen)

theorem nodup_pyDedup [DecidableEq α] (l : List α) : (pyDedup l).Nodup :=
  nodup_pyDedupAux l []

theorem toFinset_pyDedup [DecidableEq α] (l : List α) :
    (pyDedup l).toFinset = l.toFinset := by
  ext a; simp [List.mem_toFinset, mem_pyDedup]

theorem pyDedup_eq_nil_iff [DecidableEq α] (l : List α) : pyDedup l = [] ↔ l = [] := by
  constructor
  · intro h
    cases l with
    | nil => rfl
    | cons x xs =>
      exfalso
      have hx : x ∈ pyDedup (x :: xs) := (mem_pyDedup x _).mpr (List.mem_cons_self x xs)
      rw [h] at hx
      exact List.not_mem_nil x hx
  · rintro rfl; rfl

/-! ### Shared facts about `save_template` -/

/-- Saving over an existing template merges in place: header fields become
first-occurrence deduplications of the concatenations, the usage count goes
up by one, the timestamp is refreshed, and every other field keeps the
existing value. -/
theorem save_template_existing (templates : String → Option Template)
    (department : String) (cand : Template) (now : String) (existing : Template)
    (h : templates department = some existing) :
    save_template templates department cand now department =
      some { existing with
             section_headers := pyDedup (existing.section_headers ++ cand.section_headers)
             sections_found := pyDedup (existing.sections_found ++ cand.sections_found)
             usage_count := existing.usage_count + 1
             last_updated := now } := by
  unfold save_template
  rw [h]
  simp

/-- Saving into a department with no stored template stores the candidate
unchanged. -/
theorem save_template_new (templates : String → Option Template)
    (department : String) (cand : Template) (now : String)
    (h : templates department = none) :
    save_template templates department cand now department = some cand := by
  unfold save_template
  rw [h]
  simp

/-- Saving never touches other departments. -/
theorem save_template_other (templates : String → Option Template)
    (department : String) (cand : Template) (now : String) (d : String)
    (hd : d ≠ department) :
    save_template templates department cand now d = templates d := by
  unfold save_template
  cases templates department <;> simp [hd]

/-! ### Claim C1 -/

/-- C1, amended. For a department that already has a stored template,
`save_template` merges: `section_headers` and `sections_found` become the
set union of the existing and candidate values, `usage_count` is
incremented by 1 and `last_updated` is refreshed; but `bullet_style`,
`date_format` and `sample_lines` RETAIN the existing stored values — the
candidate values for these fields are ignored, not most-recent-wins. -/
theorem save_template_merge_semantics (templates : String → Option Template)
    (department : String) (cand : Template) (now : String) (existing : Template)
    (h : templates department = some existing) :
    ∃ t, save_template templates department cand now department = some t ∧
      t.section_headers.toFinset
        = existing.section_headers.toFinset ∪ cand.section_headers.toFinset ∧
      t.sections_found.toFinset
        = existing.sections_found.toFinset ∪ cand.sections_found.toFinset ∧
      t.usage_count = existing.usage_count + 1 ∧
      t.last_updated = now ∧
      t.bullet_style = existing.bullet_style ∧
      t.date_format = existing.date_format ∧
      t.sample_lines = existing.sample_lines := by
  refine ⟨_, save_template_existing templates department cand now existing h,
    ?_, ?_, rfl, rfl, rfl, rfl, rfl⟩
  · rw [toFinset_pyDedup, List.toFinset_append]
  · rw [toFinset_pyDedup, List.toFinset_append]

/-- C1, counterexample: after merging `c1Candidate` over `c1Existing`, the
stored `bullet_style`, `date_format` and `sample_lines` are still the
existing values, not the candidate values the claim says they are
overwritten with. -/
theorem save_template_not_most_recent_wins :
    ((save_template c1Store "eng" c1Candidate "2024-02-02T00:00:00") "eng").map
        Template.bullet_style = some (some "dash") ∧
    ((save_template c1Store "eng" c1Candidate "2024-02-02T00:00:00") "eng").map
        Template.date_format = some "iso" ∧
    ((save_template c1Store "eng" c1Candidate "2024-02-02T00:00:00") "eng").map
        Template.sample_lines = some ["old sample line"] ∧
    c1Candidate.bullet_style = some "asterisk" ∧
    c1Candidate.date_format = "us" ∧
    c1Candidate.sample_lines = ["new sample line"] := by
  decide

/-- C1, witness: the amended merge behaviour at the concrete store. -/
theorem save_template_merge_semantics_witness :
    ∃ t, save_template c1Store "eng" c1Candidate "2024-02-02T00:00:00" "eng" = some t ∧
      t.section_headers.toFinset
        = c1Existing.section_headers.toFinset ∪ c1Candidate.section_headers.toFinset ∧
      t.sections_found.toFinset
        = c1Existing.sections_found.toFinset ∪ c1Candidate.sections_found.toFinset ∧
      t.usage_count = c1Existing.usage_count + 1 ∧
      t.last_updated = "2024-02-02T00:00:00" ∧
      t.bullet_style = c1Existing.bullet_style ∧
      t.date_format = c1Existing.date_format ∧
      t.sample_lines = c1Existing.sample_lines :=
  save_template_merge_semantics c1Store "eng" c1Candidate "2024-02-02T00:00:00" c1Existing rfl

/-! ### Claim C10 -/

/-- C10. When no template is stored for the department, `validate_report`
returns a verdict with `valid` true and an explanatory message only: the
`missing_sections`, `warnings` and match-score keys are all absent. -/
theorem validate_report_no_template (templates : String → Option Template)
    (text department : String) (h : templates department = none) :
    validate_report templates text department =
      { valid := true
        message := some "No template defined for this department"
        missing_sections := none
        warnings := none
        template_match_score := none } := by
  unfold validate_report get_template
  rw [h]

/-- C10, witness at a concrete store and report. -/
theorem validate_report_no_template_witness :
    validate_report c10Store "Accomplishments:\nshipped the release" "ops" =
      { valid := true
        message := some "No template defined for this department"
        missing_sections := none
        warnings := none
        template_match_score := none } :=
  validate_report_no_template c10Store "Accomplishments:\nshipped the release" "ops" rfl

/-! ### Claim C6 -/

/-- The fallback conclusion always reports `fallback_ai` and picks exactly
one of the three canned narratives, by the if/elif cascade on
(sentiment label, urgency). -/
theorem fallback_conclusion_spec (analysis : AnalysisRecord) (now : String) :
    (generate_fallback_conclusion analysis now).generated_by = "fallback_ai" ∧
    ((generate_fallback_conclusion analysis now).ai_conclusion = goodProgressConclusion ∨
     (generate_fallback_conclusion analysis now).ai_conclusion = attentionNeededConclusion ∨
     (generate_fallback_conclusion analysis now).ai_conclusion = stableOperationsConclusion) ∧
    ((generate_fallback_conclusion analysis now).ai_conclusion = goodProgressConclusion ↔
      (analysis.sentiment.label = "positive" ∧ analysis.urgency = "low")) ∧
    ((generate_fallback_conclusion analysis now).ai_conclusion = attentionNeededConclusion ↔
      (¬(analysis.sentiment.label = "positive" ∧ analysis.urgency = "low") ∧
        (analysis.sentiment.label = "negative" ∨ analysis.urgency = "high"))) ∧
    ((generate_fallback_conclusion analysis now).ai_conclusion = stableOperationsConclusion ↔
      (¬(analysis.sentiment.label = "positive" ∧ analysis.urgency = "low") ∧
        ¬(analysis.sentiment.label = "negative" ∨ analysis.urgency = "high"))) := by
  have hd1 : goodProgressConclusion ≠ attentionNeededConclusion := by decide
  have hd2 : goodProgressConclusion ≠ stableOperationsConclusion := by decide
  have hd3 : attentionNeededConclusion ≠ stableOperationsConclusion := by decide
  unfold generate_fallback_conclusion
  simp only [Bool.and_eq_true, Bool.or_eq_true, decide_eq_true_eq]
  by_cases h1 : analysis.sentiment.label = "positive" ∧ analysis.urgency = "low"
  · rw [if_pos h1]
    simp [h1, hd1, hd2]
  · rw [if_neg h1]
    by_cases h2 : analysis.sentiment.label = "negative" ∨ analysis.urgency = "high"
    · rw [if_pos h2]
      simp [h1, h2, hd1.symm, hd3]
    · rw [if_neg h2]
      simp [h1, h2, hd2.symm, hd3.symm]

/-- C6. Whenever the external call is unavailable, raises, or returns empty
content, the conclusion record is produced by the fallback: `generated_by`
is the fallback marker and the narrative is exactly one of the three canned
templates, chosen solely by the (sentiment, urgency) rule; this path is a
total function. -/
theorem gemini_conclusion_fallback (outcome : ServiceOutcome)
    (analysis : AnalysisRecord) (now : String) (h : serviceFailed outcome = true) :
    (generate_gemini_conclusion outcome analysis now).generated_by = "fallback_ai" ∧
    ((generate_gemini_conclusion outcome analysis now).ai_conclusion = goodProgressConclusion ∨
     (generate_gemini_conclusion outcome analysis now).ai_conclusion = attentionNeededConclusion ∨
     (generate_gemini_conclusion outcome analysis now).ai_conclusion = stableOperationsConclusion) ∧
    ((generate_gemini_conclusion outcome analysis now).ai_conclusion = goodProgressConclusion ↔
      (analysis.sentiment.label = "positive" ∧ analysis.urgency = "low")) ∧
    ((generate_gemini_conclusion outcome analysis now).ai_conclusion = attentionNeededConclusion ↔
      (¬(analysis.sentiment.label = "positive" ∧ analysis.urgency = "low") ∧
        (analysis.sentiment.label = "negative" ∨ analysis.urgency = "high"))) ∧
    ((generate_gemini_conclusion outcome analysis now).ai_conclusion = stableOperationsConclusion ↔
      (¬(analysis.sentiment.label = "positive" ∧ analysis.urgency = "low") ∧
        ¬(analysis.sentiment.label = "negative" ∨ analysis.urgency = "high"))) := by
  have hr : generate_gemini_conclusion outcome analysis now
      = generate_fallback_conclusion analysis now := by
    cases outcome with
    | unavailable => rfl
    | errored => rfl
    | responded t =>
      simp only [serviceFailed] at h
      simp [generate_gemini_conclusion, h]
  rw [hr]
  exact fallback_conclusion_spec analysis now

/-- C6, witness: with the service unavailable the record is marked as
produced by the fallback. -/
theorem gemini_conclusion_fallback_witness :
    (generate_gemini_conclusion ServiceOutcome.unavailable c6Analysis
        "2024-03-03T00:00:00").generated_by = "fallback_ai" :=
  (gemini_conclusion_fallback ServiceOutcome.unavailable c6Analysis
    "2024-03-03T00:00:00" rfl).1

/-! ### Rounding facts -/

theorem ratFloor_eq_floor (q : ℚ) : ratFloor q = ⌊q⌋ := by
  rw [ratFloor, Int.fdiv_eq_ediv _ (by positivity), Rat.floor_def]

theorem roundHalfEven_zero : roundHalfEven 0 = 0 := by
  unfold roundHalfEven
  rw [ratFloor_eq_floor]
  norm_num

theorem pyRound2_zero : pyRound2 0 = 0 := by
  unfold pyRound2
  norm_num [roundHalfEven_zero]

theorem roundHalfEven_ge (q : ℚ) (b : ℤ) (h : (b : ℚ) ≤ q) : b ≤ roundHalfEven q := by
  unfold roundHalfEven
  rw [ratFloor_eq_floor]
  have hf : b ≤ ⌊q⌋ := Int.le_floor.mpr h
  split_ifs <;> omega

theorem roundHalfEven_le (q : ℚ) (b : ℤ) (h : q ≤ (b : ℚ)) : roundHalfEven q ≤ b := by
  unfold roundHalfEven
  rw [ratFloor_eq_floor]
  have hf : ⌊q⌋ ≤ b := by
    have h2 : ⌊q⌋ ≤ ⌊(b : ℚ)⌋ := Int.floor_le_floor h
    simpa using h2
  by_cases heq : ⌊q⌋ = b
  · have h0 : q - (⌊q⌋ : ℚ) ≤ 0 := by
      rw [heq]; linarith
    rw [if_pos (lt_of_le_of_lt h0 (by norm_num))]
    exact hf
  · have hlt : ⌊q⌋ < b := lt_of_le_of_ne hf heq
    split_ifs <;> omega

theorem pyRound2_pos (q : ℚ) (hq : 1/2 < q) : 0 < pyRound2 q := by
  unfold pyRound2
  have h50 : ((50 : ℤ) : ℚ) ≤ q * 100 := by push_cast; linarith
  have hr : (50 : ℤ) ≤ roundHalfEven (q * 100) := roundHalfEven_ge _ _ h50
  have : (0 : ℚ) < (roundHalfEven (q * 100) : ℚ) := by exact_mod_cast lt_of_lt_of_le (by norm_num) hr
  positivity

theorem pyRound2_neg (q : ℚ) (hq : q < -(1/2)) : pyRound2 q < 0 := by
  unfold pyRound2
  have h50 : q * 100 ≤ ((-50 : ℤ) : ℚ) := by push_cast; linarith
  have hr : roundHalfEven (q * 100) ≤ -50 := roundHalfEven_le _ _ h50
  have hc : (roundHalfEven (q * 100) : ℚ) ≤ ((-50 : ℤ) : ℚ) := by exact_mod_cast hr
  have : (roundHalfEven (q * 100) : ℚ) < 0 := by push_cast at hc ⊢; linarith
  exact div_neg_of_neg_of_pos this (by norm_num)

/-! ### Claim C9 -/

/-- C9. The analyzer is total by construction (it is a Lean function), and
on the empty string it returns the all-empty record: zero word count, empty
topic/accomplishment/problem/action lists, neutral sentiment of score 0,
low urgency and an empty summary. -/
theorem analyze_empty :
    analyze "" =
      { sentiment := { label := "neutral", score := 0, positive_words := 0, negative_words := 0 }
        topics := []
        summary := ""
        word_count := 0
        urgency := "low"
        accomplishments := []
        problems := []
        action_items := []
        analysis_complete := true } := by
  have hbase : analyze "" =
      { sentiment :=
          { label := "neutral", score := pyRound2 0, positive_words := 0, negative_words := 0 }
        topics := []
        summary := ""
        word_count := 0
        urgency := "low"
        accomplishments := []
        problems := []
        action_items := []
        analysis_complete := true } := rfl
  rw [hbase, pyRound2_zero]

/-! ### Claim C3 -/

/-- C3. The sentiment label is `positive` iff the positive token count
strictly exceeds the negative one, `negative` iff the reverse strict
inequality holds, and `neutral` exactly on ties (including zero/zero); the
score is 0 exactly on a tie, positive exactly when the label is positive
and negative exactly when the label is negative. -/
theorem analyze_sentiment_spec (text : String) :
    ((analyze text).sentiment.label = "positive" ↔
      (analyze text).sentiment.negative_words < (analyze text).sentiment.positive_words) ∧
    ((analyze text).sentiment.label = "negative" ↔
      (analyze text).sentiment.positive_words < (analyze text).sentiment.negative_words) ∧
    ((analyze text).sentiment.label = "neutral" ↔
      (analyze text).sentiment.positive_words = (analyze text).sentiment.negative_words) ∧
    (0 < (analyze text).sentiment.score ↔
      (analyze text).sentiment.negative_words < (analyze text).sentiment.positive_words) ∧
    ((analyze text).sentiment.score < 0 ↔
      (analyze text).sentiment.positive_words < (analyze text).sentiment.negative_words) ∧
    ((analyze text).sentiment.score = 0 ↔
      (analyze text).sentiment.positive_words = (analyze text).sentiment.negative_words) := by
  set P := ((pyWords (pyLower text)).filter (fun w => positive_words.contains w)).length with hP
  set N := ((pyWords (pyLower text)).filter (fun w => negative_words.contains w)).length with hN
  have hpos : (analyze text).sentiment.positive_words = P := rfl
  have hneg : (analyze text).sentiment.negative_words = N := rfl
  have hlabel : (analyze text).sentiment.label =
      (if N < P then "positive" else if P < N then "negative" else "neutral") := rfl
  have hscore : (analyze text).sentiment.score =
      pyRound2 (if N < P then (P : ℚ) / ((max (P + N) 1 : Nat) : ℚ)
                else if P < N then -(N : ℚ) / ((max (P + N) 1 : Nat) : ℚ)
                else 0) := rfl
  have hmax : N < P ∨ P < N → ((max (P + N) 1 : Nat) : ℚ) = ((P + N : Nat) : ℚ) := by
    intro h
    have h1 : 1 ≤ P + N := by omega
    rw [Nat.max_eq_left h1]
  rcases Nat.lt_trichotomy N P with h | h | h
  · have hq : 1/2 < (P : ℚ) / ((max (P + N) 1 : Nat) : ℚ) := by
      rw [hmax (Or.inl h)]
      have hPN : (0 : ℚ) < ((P + N : Nat) : ℚ) := by
        have : 0 < P + N := by omega
        exact_mod_cast this
      rw [lt_div_iff hPN]
      push_cast
      have : (N : ℚ) < (P : ℚ) := by exact_mod_cast h
      linarith
    have hsc : 0 < pyRound2 ((P : ℚ) / ((max (P + N) 1 : Nat) : ℚ)) := pyRound2_pos _ hq
    rw [hpos, hneg, hlabel, hscore]
    simp only [if_pos h]
    refine ⟨?_, ?_, ?_, ?_, ?_, ?_⟩
    · exact ⟨fun _ => h, fun _ => trivial⟩
    · exact ⟨fun hx => absurd hx (by decide), fun hx => absurd hx (Nat.lt_asymm h)⟩
    · exact ⟨fun hx => absurd hx (by decide), fun hx => absurd hx.symm (Nat.ne_of_lt h)⟩
    · exact ⟨fun _ => h, fun _ => hsc⟩
    · constructor
      · intro hx; exact absurd (lt_trans hx hsc) (lt_irrefl _)
      · intro hx; exact absurd hx (Nat.lt_asymm h)
    · constructor
      · intro hx; rw [hx] at hsc; exact absurd hsc (lt_irrefl _)
      · intro hx; exact absurd hx.symm (Nat.ne_of_lt h)
  · have h1 : ¬(N < P) := by omega
    have h2 : ¬(P < N) := by omega
    have hsc : (analyze text).sentiment.score = 0 := by
      rw [hscore, if_neg h1, if_neg h2, pyRound2_zero]
    rw [hpos, hneg, hlabel, if_neg h1, if_neg h2]
    refine ⟨?_, ?_, ?_, ?_, ?_, ?_⟩
    · exact ⟨fun hx => absurd hx (by decide), fun hx => absurd hx h1⟩
    · exact ⟨fun hx => absurd hx (by decide), fun hx => absurd hx h2⟩
    · exact ⟨fun _ => h.symm, fun _ => rfl⟩
    · rw [hsc]
      exact ⟨fun hx => absurd hx (lt_irrefl _), fun hx => absurd hx h1⟩
    · rw [hsc]
      exact ⟨fun hx => absurd hx (lt_irrefl _), fun hx => absurd hx h2⟩
    · rw [hsc]
      exact ⟨fun _ => h.symm, fun _ => rfl⟩
  · have h1 : ¬(N < P) := Nat.lt_asymm h
    have hq : -(N : ℚ) / ((max (P + N) 1 : Nat) : ℚ) < -(1/2) := by
      rw [hmax (Or.inr h)]
      have hPN : (0 : ℚ) < ((P + N : Nat) : ℚ) := by
        have : 0 < P + N := by omega
        exact_mod_cast this
      rw [div_lt_iff hPN]
      push_cast
      have : (P : ℚ) < (N : ℚ) := by exact_mod_cast h
      linarith
    have hsc : pyRound2 (-(N : ℚ) / ((max (P + N) 1 : Nat) : ℚ)) < 0 := pyRound2_neg _ hq
    rw [hpos, hneg, hlabel, hscore]
    simp only [if_neg h1, if_pos h]
    refine ⟨?_, ?_, ?_, ?_, ?_, ?_⟩
    · exact ⟨fun hx => absurd hx (by decide), fun hx => absurd hx h1⟩
    · exact ⟨fun _ => h, fun _ => trivial⟩
    · exact ⟨fun hx => absurd hx (by decide), fun hx => absurd hx (Nat.ne_of_lt h)⟩
    · constructor
      · intro hx; exact absurd (lt_trans hsc hx) (lt_irrefl _)
      · intro hx; exact absurd hx h1
    · exact ⟨fun _ => h, fun _ => hsc⟩
    · constructor
      · intro hx; rw [hx] at hsc; exact absurd hsc (lt_irrefl _)
      · intro hx; exact absurd hx (Nat.ne_of_lt h)

/-! ### Claim C4 -/

/-- Projections of the template branch of `validate_report`. -/
theorem validate_report_some_parts (templates : String → Option Template)
    (text department : String) (t : Template) (h : templates department = some t) :
    (validate_report templates text department).missing_sections
      = some (t.required_sections.filter (fun sec => !pyIn sec (pyLower text))) ∧
    (validate_report templates text department).valid
      = (t.required_sections.filter (fun sec => !pyIn sec (pyLower text))).isEmpty := by
  unfold validate_report get_template
  rw [h]
  exact ⟨rfl, rfl⟩

/-- C4. Against a stored template, the verdict is valid iff
`missing_sections` is empty; a required section occurring as a substring of
the lowercased text is excluded from `missing_sections`, a required section
not occurring is included and forces `valid = false`; and validity depends
only on `required_sections` — in particular the warning-producing fields
(date format, bullet style) never affect it. -/
theorem validate_report_template_spec (templates : String → Option Template)
    (text department : String) (t : Template) (h : templates department = some t) :
    (validate_report templates text department).missing_sections
      = some (t.required_sections.filter (fun sec => !pyIn sec (pyLower text))) ∧
    ((validate_report templates text department).valid = true ↔
      t.required_sections.filter (fun sec => !pyIn sec (pyLower text)) = []) ∧
    (∀ s ∈ t.required_sections, pyIn s (pyLower text) = true →
      s ∉ t.required_sections.filter (fun sec => !pyIn sec (pyLower text))) ∧
    (∀ s ∈ t.required_sections, pyIn s (pyLower text) = false →
      s ∈ t.required_sections.filter (fun sec => !pyIn sec (pyLower text)) ∧
      (validate_report templates text department).valid = false) ∧
    (∀ (templates2 : String → Option Template) (t2 : Template),
      templates2 department = some t2 → t2.required_sections = t.required_sections →
      (validate_report templates2 text department).valid
        = (validate_report templates text department).valid) := by
  obtain ⟨hms, hvalid⟩ := validate_report_some_parts templates text department t h
  refine ⟨hms, ?_, ?_, ?_, ?_⟩
  · rw [hvalid]
    exact List.isEmpty_iff
  · intro s hs hin
    simp [List.mem_filter, hin]
  · intro s hs hin
    have hmem : s ∈ t.required_sections.filter (fun sec => !pyIn sec (pyLower text)) :=
      List.mem_filter.mpr ⟨hs, by rw [hin]; rfl⟩
    refine ⟨hmem, ?_⟩
    rw [hvalid]
    cases hcase : t.required_sections.filter (fun sec => !pyIn sec (pyLower text)) with
    | nil => rw [hcase] at hmem; cases hmem
    | cons a as => rfl
  · intro templates2 t2 h2 hreq
    obtain ⟨_, hvalid2⟩ := validate_report_some_parts templates2 text department t2 h2
    rw [hvalid, hvalid2, hreq]

/-- C4, witness: a report containing the literal substring `metrics` has no
missing sections and is valid. -/
theorem validate_report_template_spec_witness :
    (validate_report c4Store "Team metrics improved this week" "ops").missing_sections
      = some (c4Template.required_sections.filter
          (fun sec => !pyIn sec (pyLower "Team metrics improved this week"))) ∧
    ((validate_report c4Store "Team metrics improved this week" "ops").valid = true ↔
      c4Template.required_sections.filter
          (fun sec => !pyIn sec (pyLower "Team metrics improved this week")) = []) :=
  ⟨(validate_report_template_spec c4Store "Team metrics improved this week" "ops"
      c4Template rfl).1,
   (validate_report_template_spec c4Store "Team metrics improved this week" "ops"
      c4Template rfl).2.1⟩

/-! ### Claim C5 -/

/-- Folding merges over a department that already stores `existing`
accumulates the union of every contributed header set. -/
theorem saveSeq_existing (department : String) :
    ∀ (ops : List (Template × String)) (templates : String → Option Template)
      (existing : Template), templates department = some existing →
      ∃ t, saveSeq templates department ops department = some t ∧
        t.section_headers.toFinset
          = ops.foldl (fun acc p => acc ∪ p.1.section_headers.toFinset)
              existing.section_headers.toFinset ∧
        t.sections_found.toFinset
          = ops.foldl (fun acc p => acc ∪ p.1.sections_found.toFinset)
              existing.sections_found.toFinset := by
  intro ops
  induction ops with
  | nil => intro templates existing h; exact ⟨existing, h, rfl, rfl⟩
  | cons op rest ih =>
    intro templates existing h
    have hsave := save_template_existing templates department op.1 op.2 existing h
    obtain ⟨t, ht, h1, h2⟩ := ih (save_template templates department op.1 op.2) _ hsave
    refine ⟨t, ht, ?_, ?_⟩
    · rw [h1]
      simp only [List.foldl_cons]
      congr 1
      rw [toFinset_pyDedup, List.toFinset_append]
    · rw [h2]
      simp only [List.foldl_cons]
      congr 1
      rw [toFinset_pyDedup, List.toFinset_append]

/-- C5. Starting from a department with no stored template, after saving a
first candidate and then any further sequence of candidates, the stored
`section_headers` and `sections_found` are exactly the set union of all
contributed sets, and one more merge can only enlarge them — the sets never
lose an element. -/
theorem save_template_sets_only_grow (templates : String → Option Template)
    (department : String) (first : Template) (now0 : String)
    (ops : List (Template × String)) (h : templates department = none) :
    ∃ t, saveSeq templates department ((first, now0) :: ops) department = some t ∧
      t.section_headers.toFinset
        = ops.foldl (fun acc p => acc ∪ p.1.section_headers.toFinset)
            first.section_headers.toFinset ∧
      t.sections_found.toFinset
        = ops.foldl (fun acc p => acc ∪ p.1.sections_found.toFinset)
            first.sections_found.toFinset ∧
      (∀ (c : Template) (now : String), ∃ t2,
        save_template (saveSeq templates department ((first, now0) :: ops))
            department c now department = some t2 ∧
        t.section_headers.toFinset ⊆ t2.section_headers.toFinset ∧
        t.sections_found.toFinset ⊆ t2.sections_found.toFinset) := by
  have h1 : save_template templates department first now0 department = some first :=
    save_template_new templates department first now0 h
  obtain ⟨t, ht, ha, hb⟩ := saveSeq_existing department ops
    (save_template templates department first now0) first h1
  refine ⟨t, ht, ha, hb, ?_⟩
  intro c now
  have hmerge := save_template_existing
    (saveSeq templates department ((first, now0) :: ops)) department c now t ht
  refine ⟨_, hmerge, ?_, ?_⟩
  · show t.section_headers.toFinset ⊆ (pyDedup (t.section_headers ++ c.section_headers)).toFinset
    rw [toFinset_pyDedup, List.toFinset_append]
    exact Finset.subset_union_left
  · show t.sections_found.toFinset ⊆ (pyDedup (t.sections_found ++ c.sections_found)).toFinset
    rw [toFinset_pyDedup, List.toFinset_append]
    exact Finset.subset_union_left

/-- C5, witness: the grow-only union behaviour at a concrete two-save
sequence from the empty store. -/
theorem save_template_sets_only_grow_witness :
    ∃ t, saveSeq (fun _ => none) "eng" ((c5A, "t1") :: [(c5B, "t2")]) "eng" = some t ∧
      t.section_headers.toFinset
        = [(c5B, "t2")].foldl (fun acc p => acc ∪ p.1.section_headers.toFinset)
            c5A.section_headers.toFinset ∧
      t.sections_found.toFinset
        = [(c5B, "t2")].foldl (fun acc p => acc ∪ p.1.sections_found.toFinset)
            c5A.sections_found.toFinset ∧
      (∀ (c : Template) (now : String), ∃ t2,
        save_template (saveSeq (fun _ => none) "eng" ((c5A, "t1") :: [(c5B, "t2")]))
            "eng" c now "eng" = some t2 ∧
        t.section_headers.toFinset ⊆ t2.section_headers.toFinset ∧
        t.sections_found.toFinset ⊆ t2.sections_found.toFinset) :=
  save_template_sets_only_grow (fun _ => none) "eng" c5A "t1" [(c5B, "t2")] rfl

/-! ### Claim C2 -/

/-- The per-section penalty loop subtracts 20 for each missing section. -/
theorem foldl_penalty (p : String → Bool) :
    ∀ (l : List String) (init : ℚ),
      l.foldl (fun sc s => if p s then sc - 20 else sc) init
        = init - 20 * ((l.filter p).length : ℚ) := by
  intro l
  induction l with
  | nil => intro init; simp
  | cons a rest ih =>
    intro init
    by_cases ha : p a
    · simp only [List.foldl_cons, if_pos ha, List.filter_cons, ha, ite_true, List.length_cons]
      rw [ih]
      push_cast
      ring
    · simp only [List.foldl_cons, if_neg ha, List.filter_cons, ha, ite_false]
      rw [ih]
      simp [ha]

/-- C2, amended. The match score is `max 0` of: the penalty score
`100 - 20 × (number of required sections absent from the lowercased text)`
(which may go negative before the clamp), capped — when the template has at
least one known header — by `min` with the coverage term
`(number of LINES of the lowercased text containing at least one known
lowercased header) / (number of distinct known headers) × 30`. The result
lies in `[0, 100]` and the coverage cap can only lower the penalty-based
score, never raise it. (The claim calls the numerator the number of headers
found; the source counts matching lines, which can exceed the number of
headers.) -/
theorem calculate_match_score_spec (text : String) (template : Template) :
    calculate_match_score text template
      = max 0
          (if (pyDedup (template.section_headers.map pyLower)).isEmpty then
            (100 : ℚ) - 20 * ((template.required_sections.filter
              (fun sec => !pyIn sec (pyLower text))).length : ℚ)
          else
            min ((100 : ℚ) - 20 * ((template.required_sections.filter
                (fun sec => !pyIn sec (pyLower text))).length : ℚ))
              ((((pySplitLines (pyLower text)).filter (fun line =>
                  (pyDedup (template.section_headers.map pyLower)).any
                    (fun hdr => pyIn hdr line))).length : ℚ)
                / (((pyDedup (template.section_headers.map pyLower)).length : ℚ)) * 30)) ∧
    0 ≤ calculate_match_score text template ∧
    calculate_match_score text template ≤ 100 ∧
    calculate_match_score text template
      ≤ max 0 ((100 : ℚ) - 20 * ((template.required_sections.filter
          (fun sec => !pyIn sec (pyLower text))).length : ℚ)) := by
  have heq : calculate_match_score text template
      = max 0
          (if (pyDedup (template.section_headers.map pyLower)).isEmpty then
            (100 : ℚ) - 20 * ((template.required_sections.filter
              (fun sec => !pyIn sec (pyLower text))).length : ℚ)
          else
            min ((100 : ℚ) - 20 * ((template.required_sections.filter
                (fun sec => !pyIn sec (pyLower text))).length : ℚ))
              ((((pySplitLines (pyLower text)).filter (fun line =>
                  (pyDedup (template.section_headers.map pyLower)).any
                    (fun hdr => pyIn hdr line))).length : ℚ)
                / (((pyDedup (template.section_headers.map pyLower)).length : ℚ)) * 30)) := by
    simp only [calculate_match_score]
    rw [foldl_penalty]
  have hbase : (100 : ℚ) - 20 * ((template.required_sections.filter
      (fun sec => !pyIn sec (pyLower text))).length : ℚ) ≤ 100 := by
    have h0 : (0 : ℚ) ≤ 20 * ((template.required_sections.filter
        (fun sec => !pyIn sec (pyLower text))).length : ℚ) := by positivity
    linarith
  refine ⟨heq, ?_, ?_, ?_⟩
  · rw [heq]; exact le_max_left 0 _
  · rw [heq]
    by_cases hemp : (pyDedup (template.section_headers.map pyLower)).isEmpty
    · rw [if_pos hemp]
      exact max_le (by norm_num) hbase
    · rw [if_neg hemp]
      exact max_le (by norm_num) (le_trans (min_le_left _ _) hbase)
  · rw [heq]
    by_cases hemp : (pyDedup (template.section_headers.map pyLower)).isEmpty
    · rw [if_pos hemp]
    · rw [if_neg hemp]
      exact max_le_max (le_refl 0) (min_le_left _ _)

/-- C2, counterexample: on a two-line report whose both lines contain the
single known header, the source scores 60 — the coverage numerator is the
number of matching LINES (2), exceeding the number of known headers (1) —
while the formula worded by the claim scores 30. -/
theorem calculate_match_score_counterexample :
    calculate_match_score "a\na" c2Template = 60 ∧
    claim_match_score "a\na" c2Template = 30 := by
  constructor
  · have h : calculate_match_score "a\na" c2Template
        = max 0 (min (100 : ℚ) (((2 : ℕ) : ℚ) / (((1 : ℕ) : ℚ)) * 30)) := rfl
    rw [h]
    push_cast
    norm_num
  · have h : claim_match_score "a\na" c2Template
        = max 0 (min ((100 : ℚ) - 20 * ((0 : ℕ) : ℚ))
            (((1 : ℕ) : ℚ) / (((1 : ℕ) : ℚ)) * 30)) := rfl
    rw [h]
    push_cast
    norm_num

/-! ### Claim C7 -/

/-- C7, amended. When no project-vocabulary term occurs as a substring of
the lowercased text, the returned topics are the (at most) 5 most frequent
alphabetic tokens of length greater than 3 — with NO stop-word filtering —
frequency ties broken by first-encountered order: the returned list is
duplicate-free, drawn from the candidate tokens, ordered by the
most-common ordering, and every candidate left out is strictly after every
returned word in that ordering. -/
theorem extract_topics_fallback_spec (text : String)
    (h : ∀ t ∈ project_words, pyIn t (pyLower text) = false) :
    (analyze text).topics.length
        = min 5 (pyDedup (topicCandidateWords (pyLower text))).length ∧
    (analyze text).topics.Nodup ∧
    (∀ w ∈ (analyze text).topics, w ∈ topicCandidateWords (pyLower text)) ∧
    (∀ w ∈ (analyze text).topics, ∀ v ∈ topicCandidateWords (pyLower text),
      v ∉ (analyze text).topics →
        topicsPrecede (topicCandidateWords (pyLower text)) w v) ∧
    (analyze text).topics.Pairwise
      (topicsPrecede (topicCandidateWords (pyLower text))) := by
  set ws := topicCandidateWords (pyLower text) with hws
  set L := List.insertionSort (topicLe ws) (counterItems ws) with hL
  -- the project-vocabulary scan comes up empty
  have hfilter : project_words.filter (fun t => pyIn t (pyLower text)) = [] := by
    rw [List.filter_eq_nil]
    intro t ht
    rw [h t ht]
    exact Bool.false_ne_true
  -- the topics are the mapped prefix of the sorted counter items
  have htop1 : extract_topics (pyLower text) = (most_common 5 ws).map (fun p => p.1) := by
    rw [extract_topics, hfilter]
    rfl
  have hperm : L.Perm (counterItems ws) := List.perm_insertionSort _ _
  have hsorted : List.Sorted (topicLe ws) L := List.sorted_insertionSort _ _
  have hfst : (counterItems ws).map Prod.fst = pyDedup ws := by
    rw [counterItems, List.map_map]
    show (pyDedup ws).map id = pyDedup ws
    exact List.map_id _
  have hLsnd : ∀ p ∈ L, p.2 = ws.count p.1 := by
    intro p hp
    have hp2 : p ∈ counterItems ws := hperm.mem_iff.mp hp
    obtain ⟨w, _, rfl⟩ := List.mem_map.mp hp2
    rfl
  have hLfst_perm : (L.map Prod.fst).Perm (pyDedup ws) := by
    rw [← hfst]
    exact hperm.map Prod.fst
  have hLfst_nodup : (L.map Prod.fst).Nodup :=
    hLfst_perm.nodup_iff.mpr (nodup_pyDedup ws)
  have hlen5 : ((most_common 5 ws).map (fun p : String × Nat => p.1)).length
      = min 5 (pyDedup ws).length := by
    rw [List.length_map, most_common, ← hL, List.length_take, hperm.length_eq,
      ← List.length_map (f := Prod.fst), hfst]
  have htops : (analyze text).topics = (most_common 5 ws).map (fun p => p.1) := by
    show (extract_topics (pyLower text)).take 5 = _
    rw [htop1]
    refine List.take_of_length_le ?_
    rw [hlen5]
    exact min_le_left _ _
  have hmcmap : (most_common 5 ws).map (fun p : String × Nat => p.1)
      = (L.map Prod.fst).take 5 := by
    rw [most_common, ← hL, List.map_take]
  -- membership of returned words among candidate tokens
  have hmem_tops : ∀ w ∈ (analyze text).topics, w ∈ ws := by
    intro w hw
    rw [htops, hmcmap] at hw
    have hw2 : w ∈ L.map Prod.fst := List.mem_of_mem_take hw
    have hw3 : w ∈ pyDedup ws := hLfst_perm.mem_iff.mp hw2
    exact (mem_pyDedup w ws).mp hw3
  refine ⟨?_, ?_, hmem_tops, ?_, ?_⟩
  · rw [htops]
    exact hlen5
  · rw [htops, hmcmap]
    exact List.Nodup.sublist (List.take_sublist _ _) hLfst_nodup
  · -- every candidate token left out comes strictly after every kept word
    intro w hw v hv hvnot
    have hwmem : w ∈ ws := hmem_tops w hw
    have hw' : w ∈ (L.map Prod.fst).take 5 := by rw [htops, hmcmap] at hw; exact hw
    obtain ⟨pw, hpwmem, hpw1⟩ : ∃ p ∈ L.take 5, p.1 = w := by
      rw [← List.map_take] at hw'
      obtain ⟨p, hp, hp1⟩ := List.mem_map.mp hw'
      exact ⟨p, hp, hp1⟩
    have hvded : v ∈ pyDedup ws := (mem_pyDedup v ws).mpr hv
    have hv' : v ∈ L.map Prod.fst := hLfst_perm.mem_iff.mpr hvded
    obtain ⟨pv, hpvmemL, hpv1⟩ := List.mem_map.mp hv'
    have hpvdrop : pv ∈ L.drop 5 := by
      rcases (List.mem_append.mp (by rw [List.take_append_drop 5 L]; exact hpvmemL :
          pv ∈ L.take 5 ++ L.drop 5)) with hin | hin
      · exfalso
        apply hvnot
        rw [htops, hmcmap, ← List.map_take]
        exact List.mem_map.mpr ⟨pv, hin, hpv1⟩
      · exact hin
    have hrel : topicLe ws pw pv :=
      hsorted.rel_of_mem_take_of_mem_drop hpwmem hpvdrop
    have hpwL : pw ∈ L := List.mem_of_mem_take hpwmem
    have hpvL : pv ∈ L := List.mem_of_mem_drop hpvdrop
    have hpw2 : pw.2 = ws.count w := by rw [hLsnd pw hpwL, hpw1]
    have hpv2 : pv.2 = ws.count v := by rw [hLsnd pv hpvL, hpv1]
    have hwv : w ≠ v := by
      rintro rfl
      exact hvnot hw
    rcases hrel with hlt | ⟨heq, hle⟩
    · left
      rw [← hpw2, ← hpv2]
      exact hlt
    · right
      constructor
      · rw [← hpw2, ← hpv2]
        exact heq.symm ▸ heq
      · rw [hpw1, hpv1] at hle
        refine lt_of_le_of_ne hle ?_
        intro hidx
        exact hwv ((List.indexOf_inj hwmem hv).mp hidx)
  · -- the returned list is ordered by the most-common ordering
    rw [htops, hmcmap, ← List.map_take]
    rw [List.pairwise_map]
    have hpair : (L.take 5).Pairwise (topicLe ws) :=
      List.Pairwise.sublist (List.take_sublist _ _) hsorted
    have hnd : (L.take 5).Pairwise (fun p q : String × Nat => p.1 ≠ q.1) := by
      rw [← List.pairwise_map (f := Prod.fst)]
      rw [List.map_take]
      exact List.Nodup.sublist (List.take_sublist _ _) hLfst_nodup
    have hcomb := List.pairwise_and_iff.mpr ⟨hpair, hnd⟩
    refine List.Pairwise.imp_of_mem ?_ hcomb
    intro p q hp hq hpq
    obtain ⟨hrel, hne⟩ := hpq
    have hpL : p ∈ L := List.mem_of_mem_take hp
    have hqL : q ∈ L := List.mem_of_mem_take hq
    have hp2 : p.2 = ws.count p.1 := hLsnd p hpL
    have hq2 : q.2 = ws.count q.1 := hLsnd q hqL
    have hp1w : p.1 ∈ ws := by
      have : p.1 ∈ L.map Prod.fst := List.mem_map.mpr ⟨p, hpL, rfl⟩
      exact (mem_pyDedup _ ws).mp (hLfst_perm.mem_iff.mp this)
    have hq1w : q.1 ∈ ws := by
      have : q.1 ∈ L.map Prod.fst := List.mem_map.mpr ⟨q, hqL, rfl⟩
      exact (mem_pyDedup _ ws).mp (hLfst_perm.mem_iff.mp this)
    rcases hrel with hlt | ⟨heq, hle⟩
    · left
      rw [← hp2, ← hq2]
      exact hlt
    · right
      refine ⟨by rw [← hp2, ← hq2]; exact heq, ?_⟩
      refine lt_of_le_of_ne hle ?_
      intro hidx
      exact hne ((List.indexOf_inj hp1w hq1w).mp hidx)

/-- C7, counterexample: the text consists only of the stop-word `that`
(and contains no project-vocabulary term), yet the analyzer returns
`that` as a topic — the source applies no stop-word filter. -/
theorem extract_topics_stopword_counterexample :
    (analyze "that that that that").topics = ["that"] ∧
    "that" ∈ specStopWords ∧
    (∀ t ∈ project_words, pyIn t (pyLower "that that that that") = false) := by
  decide

/-- C7, witness: the amended most-common behaviour at a concrete text with
no project-vocabulary term. -/
theorem extract_topics_fallback_spec_witness :
    (analyze "delta delta gamma epsilon").topics.length
        = min 5 (pyDedup (topicCandidateWords (pyLower "delta delta gamma epsilon"))).length ∧
    (analyze "delta delta gamma epsilon").topics.Nodup :=
  ⟨(extract_topics_fallback_spec "delta delta gamma epsilon" (by decide)).1,
   (extract_topics_fallback_spec "delta delta gamma epsilon" (by decide)).2.1⟩

/-! ### Claim C8 -/

/-- The guarded fold of one line equals folding `bumpCount` over the
styles the line matches. -/
theorem foldl_bump_filter (line : String) :
    ∀ (l : List (String × (String → Bool))) (acc : List (String × Nat)),
      l.foldl (fun acc p => if p.2 line then bumpCount acc p.1 else acc) acc
        = ((l.filter (fun p => p.2 line)).map Prod.fst).foldl bumpCount acc := by
  intro l
  induction l with
  | nil => intro acc; rfl
  | cons p ps ih =>
    intro acc
    by_cases hp : p.2 line
    · simp only [List.foldl_cons, if_pos hp, List.filter_cons, hp, ite_true, List.map_cons]
      exact ih _
    · simp only [List.foldl_cons, if_neg hp, List.filter_cons, hp, ite_false]
      exact ih _

/-- The whole tally fold is the `bumpCount` fold over the matched
sequence. -/
theorem foldl_tally_eq :
    ∀ (lines : List String) (acc : List (String × Nat)),
      lines.foldl tallyLine acc = (matchedSeq lines).foldl bumpCount acc := by
  intro lines
  induction lines with
  | nil => intro acc; rfl
  | cons line rest ih =>
    intro acc
    simp only [List.foldl_cons, matchedSeq, List.flatMap_cons, List.foldl_append]
    rw [ih]
    congr 1
    exact foldl_bump_filter line bulletStyles acc

/-- Bumping an absent key appends it with count 1. -/
theorem bumpCount_not_mem :
    ∀ (acc : List (String × Nat)) (x : String), x ∉ acc.map Prod.fst →
      bumpCount acc x = acc ++ [(x, 1)] := by
  intro acc
  induction acc with
  | nil => intro x _; rfl
  | cons p ps ih =>
    intro x hx
    have hne : p.1 ≠ x := by
      intro hc
      exact hx (by rw [← hc]; exact List.mem_map.mpr ⟨p, List.mem_cons_self _ _, rfl⟩)
    cases p with
    | mk s n =>
      simp only [bumpCount, if_neg (by simpa using hne)]
      rw [ih x (fun hc => hx (List.mem_cons_of_mem _ hc))]
      rfl

/-- Bumping a key present (first) after a prefix without that key
increments that entry in place. -/
theorem bumpCount_split (x : String) (n : Nat) :
    ∀ (l₁ l₂ : List (String × Nat)), x ∉ l₁.map Prod.fst →
      bumpCount (l₁ ++ (x, n) :: l₂) x = l₁ ++ (x, n + 1) :: l₂ := by
  intro l₁
  induction l₁ with
  | nil =>
    intro l₂ _
    simp [bumpCount]
  | cons p ps ih =>
    intro l₂ hx
    have hne : p.1 ≠ x := by
      intro hc
      exact hx (by rw [← hc]; exact List.mem_map.mpr ⟨p, List.mem_cons_self _ _, rfl⟩)
    cases p with
    | mk s m =>
      simp only [List.cons_append, bumpCount, if_neg (by simpa using hne)]
      show (s, m) :: bumpCount (ps ++ (x, n) :: l₂) x = (s, m) :: (ps ++ (x, n + 1) :: l₂)
      rw [ih l₂ (fun hc => hx (List.mem_cons_of_mem _ hc))]

/-- One unfolding step of `pyDedupAux` on an already-seen head. -/
theorem pyDedupAux_cons_mem [DecidableEq α] {seen : List α} {y : α} (h : y ∈ seen)
    (l : List α) : pyDedupAux seen (y :: l) = pyDedupAux seen l := by
  simp [pyDedupAux, h]

/-- One unfolding step of `pyDedupAux` on a fresh head. -/
theorem pyDedupAux_cons_not_mem [DecidableEq α] {seen : List α} {y : α} (h : y ∉ seen)
    (l : List α) : pyDedupAux seen (y :: l) = y :: pyDedupAux (y :: seen) l := by
  simp [pyDedupAux, h]

/-- Appending one element to the scanned list extends the first-occurrence
deduplication iff the element is new. -/
theorem pyDedupAux_append_singleton [DecidableEq α] (x : α) :
    ∀ (xs : List α) (seen : List α),
      pyDedupAux seen (xs ++ [x])
        = if x ∈ seen ∨ x ∈ xs then pyDedupAux seen xs
          else pyDedupAux seen xs ++ [x] := by
  intro xs
  induction xs with
  | nil =>
    intro seen
    by_cases hx : x ∈ seen
    · simp [pyDedupAux, hx]
    · simp [pyDedupAux, hx]
  | cons y ys ih =>
    intro seen
    have hiff1 : (x ∈ seen ∨ x ∈ y :: ys) ↔ (x ∈ seen ∨ x = y ∨ x ∈ ys) := by
      rw [List.mem_cons]
    by_cases hy : y ∈ seen
    · rw [List.cons_append, pyDedupAux_cons_mem hy, pyDedupAux_cons_mem hy, ih seen]
      by_cases hc : x ∈ seen ∨ x ∈ ys
      · rw [if_pos hc, if_pos]
        rcases hc with h | h
        · exact Or.inl h
        · exact Or.inr (List.mem_cons_of_mem _ h)
      · rw [if_neg hc, if_neg]
        intro h
        apply hc
        rcases hiff1.mp h with h2 | h2 | h2
        · exact Or.inl h2
        · exact Or.inl (h2 ▸ hy)
        · exact Or.inr h2
    · rw [List.cons_append, pyDedupAux_cons_not_mem hy, pyDedupAux_cons_not_mem hy,
        ih (y :: seen)]
      have hiff2 : (x ∈ y :: seen ∨ x ∈ ys) ↔ (x ∈ seen ∨ x ∈ y :: ys) := by
        rw [List.mem_cons, List.mem_cons]
        tauto
      by_cases hc : x ∈ seen ∨ x ∈ y :: ys
      · rw [if_pos (hiff2.mpr hc), if_pos hc]
      · rw [if_neg (fun h => hc (hiff2.mp h)), if_neg hc]
        rfl

/-- Appending an already-seen element leaves the deduplication unchanged. -/
theorem pyDedup_append_mem [DecidableEq α] (xs : List α) (x : α) (h : x ∈ xs) :
    pyDedup (xs ++ [x]) = pyDedup xs := by
  rw [pyDedup, pyDedupAux_append_singleton, if_pos (Or.inr h)]
  rfl

/-- Appending a new element appends it to the deduplication. -/
theorem pyDedup_append_not_mem [DecidableEq α] (xs : List α) (x : α) (h : x ∉ xs) :
    pyDedup (xs ++ [x]) = pyDedup xs ++ [x] := by
  rw [pyDedup, pyDedupAux_append_singleton]
  rw [if_neg]
  · rfl
  · rintro (hc | hc)
    · cases hc
    · exact h hc

/-- Invariant of the counts dict built by folding `bumpCount` over the
matched-style sequence: the keys are the styles in order of first match,
each with its tally in the sequence. -/
theorem tally_foldl_spec (xs : List String) :
    ((xs.foldl bumpCount []).map Prod.fst = pyDedup xs) ∧
    (∀ p ∈ xs.foldl bumpCount [], p.2 = xs.count p.1) := by
  induction xs using List.reverseRecOn with
  | nil => exact ⟨rfl, by intro p hp; cases hp⟩
  | append_singleton xs x ih =>
    obtain ⟨hkeys, hvals⟩ := ih
    have hfold : (xs ++ [x]).foldl bumpCount [] = bumpCount (xs.foldl bumpCount []) x := by
      rw [List.foldl_append]
      rfl
    have hknodup : ((xs.foldl bumpCount []).map Prod.fst).Nodup := by
      rw [hkeys]; exact nodup_pyDedup xs
    by_cases hx : x ∈ xs
    · have hxk : x ∈ (xs.foldl bumpCount []).map Prod.fst := by
        rw [hkeys]; exact (mem_pyDedup x xs).mpr hx
      obtain ⟨p, hpmem, hp1⟩ := List.mem_map.mp hxk
      obtain ⟨l₁, l₂, hsplit⟩ := List.append_of_mem hpmem
      have hkeq : (xs.foldl bumpCount []).map Prod.fst
          = l₁.map Prod.fst ++ p.1 :: l₂.map Prod.fst := by
        rw [hsplit]; simp
      rw [hkeq] at hknodup
      obtain ⟨hnd1, hnd2, hdisj⟩ := List.nodup_append.mp hknodup
      have hxl₁ : x ∉ l₁.map Prod.fst := fun hc =>
        hdisj (hp1 ▸ hc) (List.mem_cons_self _ _)
      have hxl₂ : x ∉ l₂.map Prod.fst := fun hc =>
        (List.nodup_cons.mp hnd2).1 (hp1 ▸ hc)
      have hp : p = (x, p.2) := by
        rw [← hp1]
      have hbump : bumpCount (xs.foldl bumpCount []) x = l₁ ++ (x, p.2 + 1) :: l₂ := by
        rw [hsplit, hp]
        exact bumpCount_split x p.2 l₁ l₂ hxl₁
      constructor
      · rw [hfold, hbump, pyDedup_append_mem xs x hx, ← hkeys, hsplit]
        simp [hp1]
      · intro q hq
        rw [hfold, hbump] at hq
        have hcx : (xs ++ [x]).count x = xs.count x + 1 := by
          rw [List.count_append, List.count_singleton]
          simp
        rcases List.mem_append.mp hq with hq1 | hq1
        · have hqacc : q ∈ xs.foldl bumpCount [] := by
            rw [hsplit]; exact List.mem_append_left _ hq1
          have hne : x ≠ q.1 := by
            intro hc
            exact hxl₁ (hc ▸ List.mem_map.mpr ⟨q, hq1, rfl⟩)
          rw [List.count_append, List.count_singleton]
          have hbeq : ((x == q.1) : Bool) = false := by
            simp [hne]
          rw [hbeq]
          simp [hvals q hqacc]
        · rcases List.mem_cons.mp hq1 with rfl | hq2
          · show p.2 + 1 = (xs ++ [x]).count x
            have hpv : p.2 = xs.count x := by rw [hvals p hpmem, hp1]
            rw [hcx, hpv]
          · have hqacc : q ∈ xs.foldl bumpCount [] := by
              rw [hsplit]
              exact List.mem_append_right _ (List.mem_cons_of_mem _ hq2)
            have hne : x ≠ q.1 := by
              intro hc
              exact hxl₂ (hc ▸ List.mem_map.mpr ⟨q, hq2, rfl⟩)
            rw [List.count_append, List.count_singleton]
            have hbeq : ((x == q.1) : Bool) = false := by
              simp [hne]
            rw [hbeq]
            simp [hvals q hqacc]
    · have hxk : x ∉ (xs.foldl bumpCount []).map Prod.fst := by
        rw [hkeys]
        exact fun hc => hx ((mem_pyDedup x xs).mp hc)
      have hbump : bumpCount (xs.foldl bumpCount []) x
          = xs.foldl bumpCount [] ++ [(x, 1)] :=
        bumpCount_not_mem _ x hxk
      constructor
      · rw [hfold, hbump, List.map_append, hkeys, pyDedup_append_not_mem xs x hx]
        rfl
      · intro q hq
        rw [hfold, hbump] at hq
        rcases List.mem_append.mp hq with hq1 | hq1
        · have hne : x ≠ q.1 := by
            intro hc
            exact hxk (hc ▸ List.mem_map.mpr ⟨q, hq1, rfl⟩)
          rw [List.count_append, List.count_singleton]
          have hbeq : ((x == q.1) : Bool) = false := by
            simp [hne]
          rw [hbeq]
          simp [hvals q hq1]
        · rw [List.mem_singleton.mp hq1]
          show (1 : Nat) = (xs ++ [x]).count x
          rw [List.count_append, List.count_singleton]
          have h0 : xs.count x = 0 := List.count_eq_zero.mpr hx
          simp [h0]

/-- Python `max(items, key=...)` on a nonempty list returns the first item
attaining the maximal value: it is a member, it bounds every value, and
everything before it in the list is strictly smaller. -/
theorem pyMaxBySnd_spec :
    ∀ (xs : List (String × Nat)) (x m : String × Nat),
      pyMaxBySnd (x :: xs) = some m →
      m ∈ x :: xs ∧ (∀ y ∈ x :: xs, y.2 ≤ m.2) ∧
      ∃ l₁ l₂, x :: xs = l₁ ++ m :: l₂ ∧ ∀ y ∈ l₁, y.2 < m.2 := by
  intro xs
  induction xs with
  | nil =>
    intro x m hm
    have hx : m = x := by
      simpa [pyMaxBySnd] using hm.symm
    subst hx
    refine ⟨List.mem_cons_self _ _, ?_, [], [], rfl, by intro y hy; cases hy⟩
    intro y hy
    rcases List.mem_cons.mp hy with rfl | hy
    · exact le_refl _
    · cases hy
  | cons y ys ih =>
    intro x m hm
    have hm' : pyMaxBySnd ((if x.2 < y.2 then y else x) :: ys) = some m := hm
    by_cases hxy : x.2 < y.2
    · rw [if_pos hxy] at hm'
      obtain ⟨hmem, hbound, l₁, l₂, hsplit, hpre⟩ := ih y m hm'
      have hym : y.2 ≤ m.2 := hbound y (List.mem_cons_self _ _)
      refine ⟨List.mem_cons_of_mem _ hmem, ?_, x :: l₁, l₂, ?_, ?_⟩
      · intro z hz
        rcases List.mem_cons.mp hz with rfl | hz
        · exact le_of_lt (lt_of_lt_of_le hxy hym)
        · exact hbound z hz
      · rw [List.cons_append, hsplit]
      · intro z hz
        rcases List.mem_cons.mp hz with rfl | hz
        · exact lt_of_lt_of_le hxy hym
        · exact hpre z hz
    · rw [if_neg hxy] at hm'
      have hyx : y.2 ≤ x.2 := Nat.le_of_not_lt hxy
      obtain ⟨hmem, hbound, l₁, l₂, hsplit, hpre⟩ := ih x m hm'
      have hxm : x.2 ≤ m.2 := hbound x (List.mem_cons_self _ _)
      refine ⟨?_, ?_, ?_⟩
      · rcases List.mem_cons.mp hmem with rfl | hmem
        · exact List.mem_cons_self _ _
        · exact List.mem_cons_of_mem _ (List.mem_cons_of_mem _ hmem)
      · intro z hz
        rcases List.mem_cons.mp hz with rfl | hz
        · exact hxm
        · rcases List.mem_cons.mp hz with rfl | hz
          · exact le_trans hyx hxm
          · exact hbound z (List.mem_cons_of_mem _ hz)
      · cases l₁ with
        | nil =>
          have hxm2 : x = m := (List.cons_eq_cons.mp hsplit).1
          have hl₂ : ys = l₂ := by
            simpa using (List.cons_eq_cons.mp hsplit).2
          refine ⟨[], y :: ys, ?_, by intro z hz; cases hz⟩
          rw [List.nil_append, ← hxm2, hl₂]
        | cons a as =>
          have hax : x = a := (List.cons_eq_cons.mp hsplit).1
          have hys : ys = as ++ m :: l₂ := by
            simpa using (List.cons_eq_cons.mp hsplit).2
          have ham : a.2 < m.2 := hpre a (List.mem_cons_self _ _)
          have hxmlt : x.2 < m.2 := by rw [hax]; exact ham
          refine ⟨x :: y :: as, l₂, ?_, ?_⟩
          · rw [List.cons_append, List.cons_append, hys]
          · intro z hz
            rcases List.mem_cons.mp hz with rfl | hz
            · exact hxmlt
            · rcases List.mem_cons.mp hz with rfl | hz
              · exact lt_of_le_of_lt hyx hxmlt
              · exact hpre z (List.mem_cons_of_mem _ hz)

/-- The Python `max` model returns nothing exactly on the empty list. -/
theorem pyMaxBySnd_eq_none (l : List (String × Nat)) :
    pyMaxBySnd l = none ↔ l = [] := by
  cases l with
  | nil => simp [pyMaxBySnd]
  | cons x xs => simp [pyMaxBySnd]

/-- Index in an appended list when the element avoids the prefix. -/
theorem indexOf_append_not_mem [DecidableEq α] (a : α) :
    ∀ (l₁ l₂ : List α), a ∉ l₁ →
      (l₁ ++ l₂).indexOf a = l₁.length + l₂.indexOf a := by
  intro l₁
  induction l₁ with
  | nil => intro l₂ _; simp
  | cons b bs ih =>
    intro l₂ ha
    have hba : b ≠ a := by
      intro hc
      exact ha (hc ▸ List.mem_cons_self _ _)
    rw [List.cons_append, List.indexOf_cons_ne _ hba,
      ih l₂ (fun hc => ha (List.mem_cons_of_mem _ hc))]
    simp [Nat.succ_eq_add_one]
    omega

/-- First-occurrence deduplication preserves the relative order of first
occurrences: if `a` comes strictly before `b` in `pyDedup l`, then the
first occurrence of `a` in `l` is strictly before that of `b`. -/
theorem pyDedupAux_indexOf_mono [DecidableEq α] {a b : α} (hab : a ≠ b) :
    ∀ (l seen : List α), a ∈ l → b ∈ l → a ∉ seen → b ∉ seen →
      (pyDedupAux seen l).indexOf a < (pyDedupAux seen l).indexOf b →
      l.indexOf a < l.indexOf b := by
  intro l
  induction l with
  | nil => intro seen ha _ _ _ _; cases ha
  | cons x xs ih =>
    intro seen ha hb has hbs hlt
    by_cases hx : x ∈ seen
    · have hax : x ≠ a := fun hc => has (hc ▸ hx)
      have hbx : x ≠ b := fun hc => hbs (hc ▸ hx)
      rw [pyDedupAux_cons_mem hx] at hlt
      have ha2 : a ∈ xs := by
        rcases List.mem_cons.mp ha with rfl | h
        · exact absurd rfl hax
        · exact h
      have hb2 : b ∈ xs := by
        rcases List.mem_cons.mp hb with rfl | h
        · exact absurd rfl hbx
        · exact h
      have := ih seen ha2 hb2 has hbs hlt
      rw [List.indexOf_cons_ne _ hax, List.indexOf_cons_ne _ hbx]
      omega
    · rw [pyDedupAux_cons_not_mem hx] at hlt
      by_cases hax : a = x
      · subst hax
        have hba : b ≠ a := fun hc => hab hc.symm
        have hb2 : b ∈ xs := by
          rcases List.mem_cons.mp hb with rfl | h
          · exact absurd rfl hba
          · exact h
        rw [List.indexOf_cons_self, List.indexOf_cons_ne _ hab]
        omega
      · have hax' : x ≠ a := fun hc => hax hc.symm
        by_cases hbx : b = x
        · subst hbx
          rw [List.indexOf_cons_self] at hlt
          omega
        · have hbx' : x ≠ b := fun hc => hbx hc.symm
          rw [List.indexOf_cons_ne _ hax', List.indexOf_cons_ne _ hbx'] at hlt
          have ha2 : a ∈ xs := by
            rcases List.mem_cons.mp ha with rfl | h
            · exact absurd rfl hax'
            · exact h
          have hb2 : b ∈ xs := by
            rcases List.mem_cons.mp hb with rfl | h
            · exact absurd rfl hbx'
            · exact h
          have has2 : a ∉ x :: seen := by
            intro hc
            rcases List.mem_cons.mp hc with hc | hc
            · exact hax hc
            · exact has hc
          have hbs2 : b ∉ x :: seen := by
            intro hc
            rcases List.mem_cons.mp hc with hc | hc
            · exact hbx hc
            · exact hbs hc
          have := ih (x :: seen) ha2 hb2 has2 hbs2 (by omega)
          rw [List.indexOf_cons_ne _ hax', List.indexOf_cons_ne _ hbx']
          omega

/-- The `pyDedup` order implies first-occurrence order. -/
theorem pyDedup_indexOf_mono [DecidableEq α] {a b : α} (hab : a ≠ b)
    (l : List α) (ha : a ∈ l) (hb : b ∈ l)
    (h : (pyDedup l).indexOf a < (pyDedup l).indexOf b) :
    l.indexOf a < l.indexOf b :=
  pyDedupAux_indexOf_mono hab l [] ha hb (List.not_mem_nil a) (List.not_mem_nil b) h

/-- C8, amended. Bullet-style detection tallies, per line, matches against
the seven fixed bullet patterns and returns a style with the highest tally;
it returns `none` exactly when no line matches any pattern; and when two
styles tie on the highest tally the winner is the style whose FIRST match
occurs earliest in the scan (lines in order, declared pattern order within
a line) — the insertion order of the counts dict — not the first-declared
style of the pattern enumeration. -/
theorem detect_bullet_style_spec (lines : List String) :
    (detect_bullet_style lines = none ↔ matchedSeq lines = []) ∧
    (∀ s, detect_bullet_style lines = some s →
      s ∈ matchedSeq lines ∧
      (∀ s' ∈ matchedSeq lines,
        (matchedSeq lines).count s' ≤ (matchedSeq lines).count s) ∧
      (∀ s' ∈ matchedSeq lines,
        (matchedSeq lines).count s' = (matchedSeq lines).count s →
        (matchedSeq lines).indexOf s ≤ (matchedSeq lines).indexOf s')) := by
  obtain ⟨hkeys, hvals⟩ := tally_foldl_spec (matchedSeq lines)
  have hdet : detect_bullet_style lines
      = (pyMaxBySnd ((matchedSeq lines).foldl bumpCount [])).map (fun p => p.1) := by
    simp only [detect_bullet_style]
    rw [foldl_tally_eq]
  constructor
  · rw [hdet]
    constructor
    · intro h
      have hnone : pyMaxBySnd ((matchedSeq lines).foldl bumpCount []) = none :=
        Option.map_eq_none'.mp h
      have hcnil : (matchedSeq lines).foldl bumpCount [] = [] :=
        (pyMaxBySnd_eq_none _).mp hnone
      have hmap : ((matchedSeq lines).foldl bumpCount []).map Prod.fst = [] := by
        rw [hcnil]
        rfl
      rw [hkeys] at hmap
      exact (pyDedup_eq_nil_iff _).mp hmap
    · intro h
      rw [h]
      rfl
  · intro s hs
    rw [hdet] at hs
    obtain ⟨m, hm, hm1⟩ := Option.map_eq_some'.mp hs
    cases hcc : (matchedSeq lines).foldl bumpCount [] with
    | nil =>
      rw [hcc] at hm
      cases hm
    | cons c0 cs =>
      rw [hcc] at hm
      obtain ⟨hmem, hbound, l₁, l₂, hsplit, hpre⟩ := pyMaxBySnd_spec cs c0 m hm
      have hsplit' : (matchedSeq lines).foldl bumpCount [] = l₁ ++ m :: l₂ := by
        rw [hcc, hsplit]
      have hmemc : m ∈ (matchedSeq lines).foldl bumpCount [] := by
        rw [hcc]; exact hmem
      have hs1 : s ∈ matchedSeq lines := by
        have hmf : s ∈ ((matchedSeq lines).foldl bumpCount []).map Prod.fst :=
          List.mem_map.mpr ⟨m, hmemc, hm1⟩
        rw [hkeys] at hmf
        exact (mem_pyDedup _ _).mp hmf
      have hm2 : m.2 = (matchedSeq lines).count s := by
        rw [hvals m hmemc, hm1]
      refine ⟨hs1, ?_, ?_⟩
      · intro s' hs'
        have hmf : s' ∈ ((matchedSeq lines).foldl bumpCount []).map Prod.fst := by
          rw [hkeys]
          exact (mem_pyDedup _ _).mpr hs'
        obtain ⟨p, hp, hp1⟩ := List.mem_map.mp hmf
        have hple : p.2 ≤ m.2 := hbound p (by rw [← hcc]; exact hp)
        have hpv : p.2 = (matchedSeq lines).count s' := by
          rw [hvals p hp, hp1]
        rw [← hpv, ← hm2]
        exact hple
      · intro s' hs' hcnt
        by_cases hss : s' = s
        · rw [hss]
        · have hmf : s' ∈ ((matchedSeq lines).foldl bumpCount []).map Prod.fst := by
            rw [hkeys]
            exact (mem_pyDedup _ _).mpr hs'
          obtain ⟨p, hp, hp1⟩ := List.mem_map.mp hmf
          have hpv : p.2 = m.2 := by
            rw [hvals p hp, hp1, hcnt, ← hm2]
          have hpl₁ : p ∉ l₁ := fun hc => (Nat.ne_of_lt (hpre p hc)) hpv
          have hpml : p ∈ m :: l₂ := by
            have hpm : p ∈ l₁ ++ m :: l₂ := by
              rw [← hsplit']; exact hp
            rcases List.mem_append.mp hpm with hin | hin
            · exact absurd hin hpl₁
            · exact hin
          have hpm : p ≠ m := by
            intro hc
            exact hss (by rw [← hp1, hc, hm1])
          have hpl₂ : p ∈ l₂ := by
            rcases List.mem_cons.mp hpml with hc | hc
            · exact absurd hc hpm
            · exact hc
          have hkeq : ((matchedSeq lines).foldl bumpCount []).map Prod.fst
              = l₁.map Prod.fst ++ s :: l₂.map Prod.fst := by
            rw [hsplit']
            simp [hm1]
          have hknodup : (((matchedSeq lines).foldl bumpCount []).map Prod.fst).Nodup := by
            rw [hkeys]
            exact nodup_pyDedup _
          rw [hkeq] at hknodup
          obtain ⟨hnd1, hnd2, hdisj⟩ := List.nodup_append.mp hknodup
          have hsl₁ : s ∉ l₁.map Prod.fst := fun hc =>
            hdisj hc (List.mem_cons_self _ _)
          have hs'l₂ : s' ∈ l₂.map Prod.fst := List.mem_map.mpr ⟨p, hpl₂, hp1⟩
          have hs'l₁ : s' ∉ l₁.map Prod.fst := fun hc =>
            hdisj hc (List.mem_cons_of_mem _ hs'l₂)
          have hs's : s ≠ s' := fun hc => hss hc.symm
          have hidx_s : (pyDedup (matchedSeq lines)).indexOf s
              = (l₁.map Prod.fst).length := by
            rw [← hkeys, hkeq, indexOf_append_not_mem s _ _ hsl₁,
              List.indexOf_cons_self]
            omega
          have hidx_s' : (l₁.map Prod.fst).length
              < (pyDedup (matchedSeq lines)).indexOf s' := by
            rw [← hkeys, hkeq, indexOf_append_not_mem s' _ _ hs'l₁,
              List.indexOf_cons_ne _ hs's]
            omega
          have hlt : (pyDedup (matchedSeq lines)).indexOf s
              < (pyDedup (matchedSeq lines)).indexOf s' := by
            rw [hidx_s]
            exact hidx_s'
          exact le_of_lt (pyDedup_indexOf_mono hs's (matchedSeq lines) hs1 hs' hlt)

/-- C8, counterexample: with one asterisk line before one dash line the two
styles tie at one match each, `dash` is declared first in the pattern
enumeration, yet the code returns `asterisk` — the tie goes to the style
that FIRST matched a line, not to the first-declared style. -/
theorem detect_bullet_style_counterexample :
    detect_bullet_style ["* a", "- b"] = some "asterisk" ∧
    (matchedSeq ["* a", "- b"]).count "dash"
      = (matchedSeq ["* a", "- b"]).count "asterisk" ∧
    bulletStyles.map Prod.fst
      = ["dash", "asterisk", "number", "letter", "checkbox", "arrow", "bullet"] ∧
    ("asterisk" : String) ≠ "dash" := by
  decide

/-- C8, witness: the amended maximal-tally behaviour at a concrete input
with a tie, applying the specification at the winning style. -/
theorem detect_bullet_style_spec_witness :
    "dash" ∈ matchedSeq ["- x", "* y"] :=
  ((detect_bullet_style_spec ["- x", "* y"]).2 "dash" (by decide)).1
